import Mathlib

/-!
Shallow embedding of the hybrid two-tier (DRAM cache in front of NVM)
memory controller of src/mem/mem_ctrl.cc (class MemCtrl).  Controller
state transitions are modelled as pure functions on an explicit state
record; external collaborators (the two media interfaces, the event
queue, the response port) are modelled by parameters or by recorded
effects, as noted at each definition.  Statistics updates, debug
printing and event (re)scheduling carry no controller state and are not
modelled.
-/

namespace MemCtrl

/-- Largest tick value (unsigned 64 bit maximum); the source uses it as the
    placeholder readyTime of packets that are not yet scheduled.  Addresses
    (Nat) and times (Nat) of the source are modelled as Nat throughout. -/
def MaxTick : Nat := 2 ^ 64 - 1

/-- Floor of the base two logarithm, written with an explicit fuel argument so
    that it is structural; the first argument must be at least the number of
    halvings needed (callers pass the number itself, which always suffices). -/
def floorLog2Go : Nat → Nat → Nat
  | 0, _ => 0
  | fuel + 1, n => if 2 ≤ n then floorLog2Go fuel (n / 2) + 1 else 0

/-- gem5 ceilLog2 from base/intmath.hh: the smallest k with n at most 2 to
    the k, computed as floorLog2(n - 1) + 1 for n above one. -/
def ceilLog2 (n : Nat) : Nat := if n ≤ 1 then 0 else floorLog2Go n (n - 1) + 1

/-- gem5 bits(val, first, last): the inclusive bit field val[first:last],
    that is (val >> last) & mask(first - last + 1); the bitwise and with an
    all-ones mask is written as mod a power of two. -/
def bits (val first last : Nat) : Nat := (val >>> last) % 2 ^ (first - last + 1)

/-- gem5 divCeil. -/
def divCeil (a b : Nat) : Nat := (a + b - 1) / b

/-- Tag store line index as computed at mem_ctrl.cc:668, 860 and 1130:
    bits(addr, ceilLog2(64) + ceilLog2(numEntries), ceilLog2(64)). -/
def dcIndex (numEntries : Nat) (a : Nat) : Nat :=
  bits a (ceilLog2 64 + ceilLog2 numEntries) (ceilLog2 64)

/-- MemCtrl::returnTag (mem_ctrl.cc:970): bits(addr, 63, indexBits + blockBits)
    with indexBits = ceilLog2(numEntries) and blockBits = ceilLog2(64). -/
def returnTag (numEntries : Nat) (a : Nat) : Nat :=
  bits a 63 (ceilLog2 numEntries + ceilLog2 64)

/-- One line of the direct-mapped DRAM-cache tag store (tagStoreDC).  The
    entry struct itself is declared in mem_ctrl.hh (not among the analyzed
    sources); its fields are those read and written by mem_ctrl.cc. -/
structure TagEntry where
  index : Nat
  tag : Nat
  valid_line : Bool
  dirty_line : Bool
  nvmAddr : Nat
deriving DecidableEq, Repr

/-- The relevant content of an external requestor packet (origRequestorPkt):
    address, size and direction.  isWrite is the negation of isRead, as the
    controller asserts exactly one of the two holds. -/
structure OrigPkt where
  addr : Nat
  size : Nat
  isRead : Bool
deriving DecidableEq, Repr

/-- A MemPacket: the burst-sized internal unit.  Fields are the ones the
    controller reads or writes; rank, entryTime and the QoS value are omitted
    (the QoS value is always zero on this path, per the comment at
    mem_ctrl.cc:1052, so each queue is modelled as its single priority
    bucket).  The back-reference to the requestor packet is carried as the
    orig* fields, and the shared BurstHelper as an optional identifier into a
    helper table. -/
structure MemPkt where
  addr : Nat
  size : Nat
  dram : Bool
  read : Bool
  read_before_write : Bool
  is_waiting_for_nvm_read : Bool
  readyTime : Nat
  burstHelper : Option Nat
  origAddr : Nat
  origSize : Nat
  origIsRead : Bool
deriving DecidableEq, Repr

/-- Bus direction states of the scheduler. -/
inductive BusState
  | READ
  | WRITE
deriving DecidableEq, Repr

/-- Outcome of one pass of the WRITE-state branch of processNextReqEvent. -/
inductive WriteIssue
  | toRead
  | blocked
  | issued (fromFill : Bool) (p : MemPkt)
deriving DecidableEq, Repr

/-- Static configuration of the controller.  Burst sizes are powers of two
    (the interfaces only report power-of-two burst sizes), carried as their
    exponents; numEntries is dram_cache_size / 64 (mem_ctrl.cc:86). -/
structure Config where
  burstShift : Nat
  nvmBurstShift : Nat
  numEntries : Nat
  writeAllocatePolicy : Bool
  readBufferSize : Nat
  writeBufferSize : Nat
  maxNvmReadQueueSize : Nat
  maxNvmWriteQueueSize : Nat
  maxDramFillQueueSize : Nat
  writeLowThreshold : Nat
  minWritesPerSwitch : Nat
deriving DecidableEq, Repr

/-- Mutable controller state.  The five work queues are lists in arrival
    order (their single QoS bucket); respQueue is kept sorted by readyTime
    with the head as the top of the priority queue; tagStoreDC is a total map
    from line index to entry (the out-of-bounds behaviour of the source index
    computation is treated separately); helpers maps a BurstHelper id to the
    pair (burstsServiced, burstCount); responses records each
    accessAndRespond call as (requestor address, inDRAM flag). -/
structure CtrlState where
  readQueue : List MemPkt
  writeQueue : List MemPkt
  nvmReadQueue : List MemPkt
  nvmWriteQueue : List MemPkt
  dramFillQueue : List MemPkt
  respQueue : List (Nat × MemPkt)
  isInWriteQueue : List Nat
  tagStoreDC : Nat → TagEntry
  nvmReadQueueSize : Nat
  nvmWriteQueueSize : Nat
  dramFillQueueSize : Nat
  helpers : Nat → Nat × Nat
  nextHelperId : Nat
  busState : BusState
  busStateNext : BusState
  retryRdReq : Bool
  retryWrReq : Bool
  retryNVMRdReq : Bool
  retryNVMWrReq : Bool
  retryDRAMFillReq : Bool
  retryRespEvent : Bool
  dramHit : Bool
  writesThisTime : Nat
  readsThisTime : Nat
  responses : List (Nat × Bool)
  totalReceivedPkts : Nat

/-- Modelled from the spec: totalReadQueueSize is the tracked size counter of
    the fast-tier read queue, maintained by the QoS base class (outside the
    analyzed sources); per the spec invariant a tracked size counter always
    equals the actual content count of its queue. -/
def CtrlState.totalReadQueueSize (s : CtrlState) : Nat := s.readQueue.length

/-- Modelled from the spec: totalWriteQueueSize is the tracked size counter of
    the fast-tier write queue, maintained by the QoS base class (outside the
    analyzed sources); per the spec invariant it equals the content count. -/
def CtrlState.totalWriteQueueSize (s : CtrlState) : Nat := s.writeQueue.length

/-- MemCtrl::readQueueFull (mem_ctrl.cc:289). -/
def readQueueFull (c : Config) (s : CtrlState) (neededEntries : Nat) : Bool :=
  decide (c.readBufferSize < s.totalReadQueueSize + s.respQueue.length + neededEntries)

/-- MemCtrl::writeQueueFull (mem_ctrl.cc:301). -/
def writeQueueFull (c : Config) (s : CtrlState) (neededEntries : Nat) : Bool :=
  decide (c.writeBufferSize < s.totalWriteQueueSize + neededEntries)

/-- MemCtrl::nvmWriteQueueFull (mem_ctrl.cc:312). -/
def nvmWriteQueueFull (c : Config) (s : CtrlState) (neededEntries : Nat) : Bool :=
  decide (c.maxNvmWriteQueueSize < s.nvmWriteQueueSize + neededEntries)

/-- MemCtrl::nvmReadQueueFull (mem_ctrl.cc:322). -/
def nvmReadQueueFull (c : Config) (s : CtrlState) (neededEntries : Nat) : Bool :=
  decide (c.maxNvmReadQueueSize < s.nvmReadQueueSize + neededEntries)

/-- MemCtrl::dramFillQueueFull (mem_ctrl.cc:332). -/
def dramFillQueueFull (c : Config) (s : CtrlState) (neededEntries : Nat) : Bool :=
  decide (c.maxDramFillQueueSize < s.dramFillQueueSize + neededEntries)

/-- MemCtrl::burstAlign (mem_ctrl.cc:2275): addr & ~(bytesPerBurst - 1),
    written with shifts, which clears the same low bits for the power-of-two
    burst sizes the interfaces use. -/
def burstAlign (c : Config) (is_dram : Bool) (a : Nat) : Nat :=
  if is_dram then (a >>> c.burstShift) <<< c.burstShift
  else (a >>> c.nvmBurstShift) <<< c.nvmBurstShift

/-- Modelled from the spec: MemInterface::decodePacket (mem_interface, outside
    the analyzed sources) decodes a request into one burst-sized unit carrying
    the given address, size, direction and target tier, with a back-reference
    to the parent request; probe flags start clear, no BurstHelper attached. -/
def decodePacket (orig : OrigPkt) (a : Nat) (sz : Nat) (isRead isDram : Bool) : MemPkt :=
  { addr := a, size := sz, dram := isDram, read := isRead,
    read_before_write := false, is_waiting_for_nvm_read := false,
    readyTime := MaxTick, burstHelper := none,
    origAddr := orig.addr, origSize := orig.size, origIsRead := orig.isRead }

/-- The requestor packet a MemPacket refers back to. -/
def MemPkt.orig (p : MemPkt) : OrigPkt := ⟨p.origAddr, p.origSize, p.origIsRead⟩

/-- MemCtrl::addToNVMReadQueue (mem_ctrl.cc:711): decode an NVM read packet
    for the same requestor packet, readyTime MaxTick, push it and bump the
    tracked size.  The caller has already checked the queue is not full. -/
def addToNVMReadQueue (s : CtrlState) (mem_pkt : MemPkt) : CtrlState :=
  let nvm_pkt := decodePacket mem_pkt.orig mem_pkt.addr mem_pkt.size true false
  { s with nvmReadQueue := s.nvmReadQueue ++ [nvm_pkt],
           nvmReadQueueSize := s.nvmReadQueueSize + 1 }

/-- MemCtrl::addToNVMWriteQueue (mem_ctrl.cc:749). -/
def addToNVMWriteQueue (s : CtrlState) (mem_pkt : MemPkt) : CtrlState :=
  let nvm_pkt := decodePacket mem_pkt.orig mem_pkt.addr mem_pkt.size false false
  { s with nvmWriteQueue := s.nvmWriteQueue ++ [nvm_pkt],
           nvmWriteQueueSize := s.nvmWriteQueueSize + 1 }

/-- MemCtrl::addToDRAMFillQueue (mem_ctrl.cc:635): decode a DRAM write packet,
    readyTime MaxTick, optionally flag it as waiting on the NVM read, push it,
    bump the tracked size, and update the tag store entry of its line: tag and
    nvmAddr from the packet address, valid and dirty both set. -/
def addToDRAMFillQueue (c : Config) (s : CtrlState) (mem_pkt : MemPkt)
    (is_waiting_for_nvm_read : Bool) : CtrlState :=
  let fill_pkt :=
    { decodePacket mem_pkt.orig mem_pkt.addr mem_pkt.size false true with
        is_waiting_for_nvm_read := is_waiting_for_nvm_read }
  let index := dcIndex c.numEntries fill_pkt.addr
  let e := s.tagStoreDC index
  { s with dramFillQueue := s.dramFillQueue ++ [fill_pkt],
           dramFillQueueSize := s.dramFillQueueSize + 1,
           tagStoreDC := Function.update s.tagStoreDC index
             { e with tag := returnTag c.numEntries fill_pkt.addr,
                      nvmAddr := fill_pkt.addr,
                      valid_line := true,
                      dirty_line := true } }

/-- Helper for updateMemPktInDRAMFillQueue: clear the waiting flag of the
    first queued fill packet with the given address that carries it (the data
    copy from the finished NVM read is not modelled, data being out of scope). -/
def clearWaitingFirst : List MemPkt → Nat → List MemPkt
  | [], _ => []
  | p :: ps, a =>
    if p.addr == a && p.is_waiting_for_nvm_read then
      { p with is_waiting_for_nvm_read := false } :: ps
    else p :: clearWaitingFirst ps a

/-- MemCtrl::updateMemPktInDRAMFillQueue (mem_ctrl.cc:685). -/
def updateMemPktInDRAMFillQueue (s : CtrlState) (mem_pkt : MemPkt) : CtrlState :=
  { s with dramFillQueue := clearWaitingFirst s.dramFillQueue mem_pkt.addr }

/-- MemCtrl::createVictimMemPkt (mem_ctrl.cc:857): the write-back packet for
    the line the incoming packet maps to; its address is the nvmAddr stored in
    the tag entry, its size min((addr | (burst - 1)) + 1, base + size) - addr
    (the next-burst-boundary expression is written arithmetically, which
    agrees for the power-of-two NVM burst size), direction write, tier NVM. -/
def createVictimMemPkt (c : Config) (s : CtrlState) (mem_pkt : MemPkt) : MemPkt :=
  let index := dcIndex c.numEntries mem_pkt.addr
  let base_addr := (s.tagStoreDC index).nvmAddr
  let a := base_addr
  let bs := 2 ^ c.nvmBurstShift
  let size := min (a - a % bs + bs) (base_addr + mem_pkt.size) - a
  decodePacket mem_pkt.orig a size false false

/-- MemCtrl::handleHit (mem_ctrl.cc:777).  A pure read needs nothing beyond
    the later respond; a tag-check read of a write (read_before_write) turns
    into a fill if the fill queue has room, else flags a retried respond. -/
def handleHit (c : Config) (s0 : CtrlState) (mem_pkt : MemPkt) : CtrlState :=
  if mem_pkt.read && !mem_pkt.read_before_write then
    { s0 with dramHit := true }
  else if mem_pkt.read && mem_pkt.read_before_write then
    if !(dramFillQueueFull c s0 1) then
      { addToDRAMFillQueue c s0 mem_pkt false with dramHit := true }
    else
      { s0 with retryDRAMFillReq := true, retryRespEvent := true, dramHit := false }
  else s0

/-- MemCtrl::handleCleanMiss (mem_ctrl.cc:802).  Reads (and writes under the
    allocate policy) need the NVM read queue and the DRAM fill queue together,
    checked before either enqueue; writes under no-allocate need only the NVM
    write queue.  On any shortage nothing is enqueued and the per-queue retry
    flags plus retryRespEvent are set. -/
def handleCleanMiss (c : Config) (s0 : CtrlState) (mem_pkt : MemPkt) : CtrlState :=
  let s := { s0 with dramHit := false }
  if mem_pkt.read && !mem_pkt.read_before_write then
    let nr := nvmReadQueueFull c s 1
    let df := dramFillQueueFull c s 1
    if !nr && !df then
      addToDRAMFillQueue c (addToNVMReadQueue s mem_pkt) mem_pkt true
    else
      let s1 := if nr then { s with retryNVMRdReq := true } else s
      let s2 := if df then { s1 with retryDRAMFillReq := true } else s1
      { s2 with retryRespEvent := true }
  else
    if !c.writeAllocatePolicy then
      if !(nvmWriteQueueFull c s 1) then
        addToNVMWriteQueue s mem_pkt
      else
        { s with retryNVMWrReq := true, retryRespEvent := true }
    else
      let nr := nvmReadQueueFull c s 1
      let df := dramFillQueueFull c s 1
      if !nr && !df then
        addToDRAMFillQueue c (addToNVMReadQueue s mem_pkt) mem_pkt true
      else
        let s1 := if nr then { s with retryNVMRdReq := true } else s
        let s2 := if df then { s1 with retryDRAMFillReq := true } else s1
        { s2 with retryRespEvent := true }

/-- MemCtrl::handleDirtyMiss (mem_ctrl.cc:874).  A victim packet is built
    first; reads (and writes under the allocate policy) need all three of the
    NVM read, NVM write and DRAM fill queues, writes under no-allocate only
    the NVM write queue (and the source then enqueues only the victim). -/
def handleDirtyMiss (c : Config) (s0 : CtrlState) (mem_pkt : MemPkt) : CtrlState :=
  let s := { s0 with dramHit := false }
  let victim := createVictimMemPkt c s mem_pkt
  if mem_pkt.read && !mem_pkt.read_before_write then
    let nr := nvmReadQueueFull c s 1
    let nw := nvmWriteQueueFull c s 1
    let df := dramFillQueueFull c s 1
    if !nr && !nw && !df then
      addToDRAMFillQueue c (addToNVMReadQueue (addToNVMWriteQueue s victim) mem_pkt) mem_pkt true
    else
      let s1 := if nr then { s with retryNVMRdReq := true } else s
      let s2 := if nw then { s1 with retryNVMWrReq := true } else s1
      let s3 := if df then { s2 with retryDRAMFillReq := true } else s2
      { s3 with retryRespEvent := true }
  else
    if !c.writeAllocatePolicy then
      if !(nvmWriteQueueFull c s 1) then
        addToNVMWriteQueue s victim
      else
        { s with retryNVMWrReq := true, retryRespEvent := true }
    else
      let nr := nvmReadQueueFull c s 1
      let nw := nvmWriteQueueFull c s 1
      let df := dramFillQueueFull c s 1
      if !nr && !nw && !df then
        addToDRAMFillQueue c (addToNVMWriteQueue (addToNVMReadQueue s mem_pkt) victim) mem_pkt true
      else
        let s1 := if nr then { s with retryNVMRdReq := true } else s
        let s2 := if nw then { s1 with retryNVMWrReq := true } else s1
        let s3 := if df then { s2 with retryDRAMFillReq := true } else s2
        { s3 with retryRespEvent := true }

/-- Ordered insertion into the respQueue, keeping the head the entry with the
    least readyTime; this models pushing into the std::priority_queue of
    (readyTime, packet) pairs ordered by std::greater. -/
def respInsert (e : Nat × MemPkt) : List (Nat × MemPkt) → List (Nat × MemPkt)
  | [] => [e]
  | x :: xs => if e.1 < x.1 then e :: x :: xs else x :: respInsert e xs

/-- The respond block of processRespondEvent (mem_ctrl.cc:1190): only read
    requestor packets are answered here; a split packet bumps its shared
    BurstHelper and answers only when all siblings are serviced; a DRAM packet
    answers only when the pass classified it a hit (dramHit). -/
def respondPhase (s : CtrlState) (mem_pkt : MemPkt) : CtrlState :=
  if mem_pkt.origIsRead then
    match mem_pkt.burstHelper with
    | some h =>
      let sv := (s.helpers h).1 + 1
      let cnt := (s.helpers h).2
      let s1 := { s with helpers := Function.update s.helpers h (sv, cnt) }
      if sv == cnt then
        if (mem_pkt.dram && s1.dramHit) || !mem_pkt.dram then
          { s1 with responses := s1.responses ++ [(mem_pkt.origAddr, mem_pkt.dram)] }
        else s1
      else s1
    | none =>
      if (mem_pkt.dram && s.dramHit) || !mem_pkt.dram then
        { s with responses := s.responses ++ [(mem_pkt.origAddr, mem_pkt.dram)] }
      else s
  else s

/-- MemCtrl::processRespondEvent (mem_ctrl.cc:1096): classify the top of the
    respQueue against the tag store (DRAM packets) or resolve the waiting fill
    (NVM packets); on a retried respond return with the queue untouched and
    the retryRespEvent flag consumed; otherwise run the respond block, pop the
    queue, and let a blocked read retry (the port retry itself is external). -/
def processRespondEvent (c : Config) (s0 : CtrlState) : CtrlState :=
  match s0.respQueue with
  | [] => s0
  | (_, mem_pkt) :: rest =>
    let s := { s0 with dramHit := false }
    let s2 :=
      if mem_pkt.dram then
        let index := dcIndex c.numEntries mem_pkt.addr
        let currTag := returnTag c.numEntries mem_pkt.addr
        let e := s.tagStoreDC index
        if !e.valid_line then handleCleanMiss c s mem_pkt
        else if e.tag == currTag then handleHit c s mem_pkt
        else if !e.dirty_line then handleCleanMiss c s mem_pkt
        else handleDirtyMiss c s mem_pkt
      else
        updateMemPktInDRAMFillQueue s mem_pkt
    if s2.retryRespEvent then
      { s2 with retryRespEvent := false, dramHit := false }
    else
      let s3 := respondPhase s2 mem_pkt
      { s3 with respQueue := rest, retryRdReq := false, dramHit := false }

/-- Accumulator of the burst loop of addToReadQueue: the evolving state, the
    current burst address, the three serviced-by counters, the foundInDRAM
    flag handed to accessAndRespond, and the BurstHelper of the request. -/
structure ReadLoopAcc where
  s : CtrlState
  addr : Nat
  servicedWrQ : Nat
  servicedFill : Nat
  servicedNvmW : Nat
  foundInDRAM : Bool
  helper : Option Nat

/-- The forwarding condition of addToReadQueue: the queued packet covers the
    requested byte range and is not waiting on an NVM read. -/
def coveredBy (p : MemPkt) (a sz : Nat) : Bool :=
  decide (p.addr ≤ a) && decide (a + sz ≤ p.addr + p.size) && !p.is_waiting_for_nvm_read

/-- Apply a step function n times; this models the for loops over the burst
    count, whose bodies do not read the loop counter. -/
def iterateStep (f : α → α) : Nat → α → α
  | 0, a => a
  | n + 1, a => iterateStep f n (f a)

/-- One iteration of the burst loop of addToReadQueue (mem_ctrl.cc:376): snoop
    the write queue (guarded by the isInWriteQueue membership check), the DRAM
    fill queue and the NVM write queue for a covering packet; if none covers,
    create a MemPacket (allocating the shared BurstHelper on the first one of
    a split request) and push it onto the read queue; then advance the burst
    address to the next burst boundary, (addr | (burst - 1)) + 1, written
    arithmetically for the power-of-two burst size. -/
def readLoopStep (c : Config) (orig : OrigPkt) (pkt_count : Nat)
    (acc : ReadLoopAcc) : ReadLoopAcc :=
  let bs := 2 ^ c.burstShift
  let a := acc.addr
  let size := min (a - a % bs + bs) (orig.addr + orig.size) - a
  let burst_addr := burstAlign c true a
  let foundInWrQ := decide (burst_addr ∈ acc.s.isInWriteQueue) &&
    acc.s.writeQueue.any (fun p => coveredBy p a size)
  let foundInFillQ := acc.s.dramFillQueue.any (fun p => coveredBy p a size)
  let foundInNvmWQ := acc.s.nvmWriteQueue.any (fun p => coveredBy p a size)
  let fd0 := if foundInWrQ then false else acc.foundInDRAM
  let fd1 := if foundInFillQ then true else fd0
  let fd := if foundInNvmWQ then false else fd1
  let nextAddr := a - a % bs + bs
  if foundInWrQ || foundInFillQ || foundInNvmWQ then
    { acc with addr := nextAddr,
               servicedWrQ := acc.servicedWrQ + (if foundInWrQ then 1 else 0),
               servicedFill := acc.servicedFill + (if foundInFillQ then 1 else 0),
               servicedNvmW := acc.servicedNvmW + (if foundInNvmWQ then 1 else 0),
               foundInDRAM := fd }
  else
    let hs : Option Nat × CtrlState :=
      match acc.helper with
      | some h => (some h, acc.s)
      | none =>
        if 1 < pkt_count then
          (some acc.s.nextHelperId,
           { acc.s with
               helpers := Function.update acc.s.helpers acc.s.nextHelperId (0, pkt_count),
               nextHelperId := acc.s.nextHelperId + 1 })
        else (none, acc.s)
    let mem_pkt := { decodePacket orig a size true true with burstHelper := hs.1 }
    { acc with s := { hs.2 with readQueue := hs.2.readQueue ++ [mem_pkt] },
               addr := nextAddr,
               foundInDRAM := fd,
               helper := hs.1 }

/-- MemCtrl::addToReadQueue (mem_ctrl.cc:341): run the burst loop; if one of
    the three serviced counters equals the whole burst count, answer the
    requestor at once (accessAndRespond with the frontend latency, recorded in
    responses); otherwise store the write-queue serviced count into the
    BurstHelper of a split request. -/
def addToReadQueue (c : Config) (s : CtrlState) (orig : OrigPkt)
    (pkt_count : Nat) : CtrlState :=
  let acc := iterateStep (readLoopStep c orig pkt_count) pkt_count
    ⟨s, orig.addr, 0, 0, 0, false, none⟩
  if acc.servicedWrQ == pkt_count || acc.servicedFill == pkt_count ||
     acc.servicedNvmW == pkt_count then
    { acc.s with responses := acc.s.responses ++ [(orig.addr, acc.foundInDRAM)] }
  else
    match acc.helper with
    | some h =>
      { acc.s with helpers :=
          Function.update acc.s.helpers h (acc.servicedWrQ, (acc.s.helpers h).2) }
    | none => acc.s

/-- One iteration of the burst loop of addToWriteQueue (mem_ctrl.cc:551): a
    burst whose aligned address is already in isInWriteQueue merges and
    vanishes; otherwise a tag-check read packet flagged read_before_write is
    created, pushed onto the write queue, and its aligned address recorded. -/
def writeLoopStep (c : Config) (orig : OrigPkt) (acc : CtrlState × Nat) :
    CtrlState × Nat :=
  let bs := 2 ^ c.burstShift
  let s := acc.1
  let a := acc.2
  let size := min (a - a % bs + bs) (orig.addr + orig.size) - a
  let merged := decide (burstAlign c true a ∈ s.isInWriteQueue)
  let s2 :=
    if !merged then
      let mem_pkt := { decodePacket orig a size true true with read_before_write := true }
      { s with writeQueue := s.writeQueue ++ [mem_pkt],
               isInWriteQueue := burstAlign c true a :: s.isInWriteQueue }
    else s
  (s2, a - a % bs + bs)

/-- MemCtrl::addToWriteQueue (mem_ctrl.cc:532).  Note the source never calls
    accessAndRespond for writes (the call at mem_ctrl.cc:623 is commented
    out). -/
def addToWriteQueue (c : Config) (s : CtrlState) (orig : OrigPkt)
    (pkt_count : Nat) : CtrlState :=
  (iterateStep (writeLoopStep c orig) pkt_count (s, orig.addr)).1

/-- MemCtrl::recvTimingReq (mem_ctrl.cc:978): compute the burst count from the
    offset within a burst, refuse with the retry flag when the matching queue
    cannot take that many entries, otherwise admit the request. -/
def recvTimingReq (c : Config) (s : CtrlState) (orig : OrigPkt) :
    Bool × CtrlState :=
  let bs := 2 ^ c.burstShift
  let offset := orig.addr % bs
  let pkt_count := divCeil (offset + orig.size) bs
  if !orig.isRead then
    if writeQueueFull c s pkt_count then
      (false, { s with retryWrReq := true })
    else
      (true, { addToWriteQueue c s orig pkt_count with
                 totalReceivedPkts := s.totalReceivedPkts + pkt_count })
  else
    if readQueueFull c s pkt_count then
      (false, { s with retryRdReq := true })
    else
      (true, { addToReadQueue c s orig pkt_count with
                 totalReceivedPkts := s.totalReceivedPkts + pkt_count })

/-- The switch-back-to-reads decision at the end of the WRITE branch of
    processNextReqEvent (mem_ctrl.cc:2205): empty write side, below the low
    watermark outside a drain, enough writes with reads waiting, or a full NVM
    write respond queue with only NVM writes queued.  Drain state and the two
    NVM conditions are external inputs. -/
def postWriteSwitch (c : Config) (draining nvmWriteRespFull all_writes_nvm : Bool)
    (s : CtrlState) : CtrlState :=
  let below_threshold :=
    decide (s.totalWriteQueueSize + c.minWritesPerSwitch + s.nvmWriteQueueSize
            + s.dramFillQueueSize < c.writeLowThreshold)
  if (s.totalWriteQueueSize + s.nvmWriteQueueSize + s.dramFillQueueSize == 0)
     || (below_threshold && !draining)
     || (decide (0 < s.totalReadQueueSize) &&
         decide (c.minWritesPerSwitch ≤ s.writesThisTime))
     || (decide (0 < s.totalReadQueueSize) && nvmWriteRespFull && all_writes_nvm) then
    { s with busStateNext := BusState.READ }
  else s

/-- The WRITE-state branch of processNextReqEvent (mem_ctrl.cc:2081).  The
    packet choice inside a queue (chooseNextDC, which defers to the media
    interfaces for readiness) is abstracted as the two chooser arguments,
    required only to return an index into the scanned queue.  The DRAM fill
    queue is scanned first; with no candidate in either queue the bus turns
    back to READ; a chosen fill packet still waiting on its NVM read blocks
    the pass and also turns the bus to READ; otherwise the packet is issued
    (doBurstAccess timing is external), removed from its queue, and the
    matching retried respond is released. -/
def writeBranch (cf cnv : List MemPkt → Option Nat) (c : Config)
    (draining nvmWriteRespFull all_writes_nvm : Bool) (s : CtrlState) :
    WriteIssue × CtrlState :=
  let fillSel := if s.dramFillQueue.isEmpty then none else cf s.dramFillQueue
  match fillSel with
  | some i =>
    match s.dramFillQueue[i]? with
    | some p =>
      if p.is_waiting_for_nvm_read then
        (WriteIssue.blocked, { s with busStateNext := BusState.READ })
      else
        let s2 := { s with writesThisTime := s.writesThisTime + 1,
                           dramFillQueue := s.dramFillQueue.eraseIdx i,
                           dramFillQueueSize := s.dramFillQueueSize - 1,
                           retryDRAMFillReq := false }
        (WriteIssue.issued true p,
         postWriteSwitch c draining nvmWriteRespFull all_writes_nvm s2)
    | none => (WriteIssue.toRead, { s with busStateNext := BusState.READ })
  | none =>
    let nvmSel := if s.nvmWriteQueue.isEmpty then none else cnv s.nvmWriteQueue
    match nvmSel with
    | some i =>
      match s.nvmWriteQueue[i]? with
      | some p =>
        let s2 := { s with writesThisTime := s.writesThisTime + 1,
                           nvmWriteQueue := s.nvmWriteQueue.eraseIdx i,
                           nvmWriteQueueSize := s.nvmWriteQueueSize - 1,
                           retryNVMWrReq := false }
        (WriteIssue.issued false p,
         postWriteSwitch c draining nvmWriteRespFull all_writes_nvm s2)
      | none => (WriteIssue.toRead, { s with busStateNext := BusState.READ })
    | none => (WriteIssue.toRead, { s with busStateNext := BusState.READ })

/-- The read-issue tail of the READ branch of processNextReqEvent
    (mem_ctrl.cc:1867): the chosen packet (index i of the NVM read queue or
    the read queue) is issued, its readyTime rt coming from the media
    interface, pushed into the respQueue, and removed from its queue;
    issuing from the NVM read queue releases a retried respond. -/
def issueReadStep (fromNvm : Bool) (i : Nat) (rt : Nat) (s : CtrlState) :
    CtrlState :=
  if fromNvm then
    match s.nvmReadQueue[i]? with
    | some p =>
      { s with nvmReadQueue := s.nvmReadQueue.eraseIdx i,
               nvmReadQueueSize := s.nvmReadQueueSize - 1,
               retryNVMRdReq := false,
               readsThisTime := s.readsThisTime + 1,
               respQueue := respInsert (rt, { p with readyTime := rt }) s.respQueue }
    | none => s
  else
    match s.readQueue[i]? with
    | some p =>
      { s with readQueue := s.readQueue.eraseIdx i,
               readsThisTime := s.readsThisTime + 1,
               respQueue := respInsert (rt, { p with readyTime := rt }) s.respQueue }
    | none => s

/-- The write-probe issue block of the READ branch of processNextReqEvent
    (mem_ctrl.cc:1943): the chosen write-queue packet (a tag-check read) is
    issued with readyTime rt, pushed into the respQueue, its aligned address
    dropped from isInWriteQueue, and the packet removed from the write
    queue. -/
def issueWriteProbeStep (c : Config) (i : Nat) (rt : Nat) (s : CtrlState) :
    CtrlState :=
  match s.writeQueue[i]? with
  | some p =>
    { s with writeQueue := s.writeQueue.eraseIdx i,
             isInWriteQueue := s.isInWriteQueue.erase (burstAlign c p.dram p.addr),
             writesThisTime := s.writesThisTime + 1,
             respQueue := respInsert (rt, { p with readyTime := rt }) s.respQueue }
  | none => s

/-- Default tag entry: value-initialized fields of the entry struct, matching
    the all-invalid tag store the constructor sets up (mem_ctrl.cc:111). -/
def initTagEntry : TagEntry := ⟨0, 0, false, false, 0⟩

/-- The controller state after construction: all queues empty, the tag store
    all-invalid, bus state READ, all retry flags clear. -/
def initState : CtrlState :=
  { readQueue := [], writeQueue := [], nvmReadQueue := [], nvmWriteQueue := [],
    dramFillQueue := [], respQueue := [], isInWriteQueue := [],
    tagStoreDC := fun _ => initTagEntry,
    nvmReadQueueSize := 0, nvmWriteQueueSize := 0, dramFillQueueSize := 0,
    helpers := fun _ => (0, 0), nextHelperId := 0,
    busState := BusState.READ, busStateNext := BusState.READ,
    retryRdReq := false, retryWrReq := false, retryNVMRdReq := false,
    retryNVMWrReq := false, retryDRAMFillReq := false, retryRespEvent := false,
    dramHit := false, writesThisTime := 0, readsThisTime := 0,
    responses := [], totalReceivedPkts := 0 }

/-- The tag store invariant: a dirty line is valid. -/
def TagInv (ts : Nat → TagEntry) : Prop :=
  ∀ i, (ts i).dirty_line = true → (ts i).valid_line = true

/-- One controller operation, as triggered by the event loop or the port:
    request admission, the respond event, a read or write-probe issue of the
    READ bus phase (readyTime and the within-queue choice are external
    inputs), or one pass of the WRITE bus phase. -/
inductive Step (c : Config) : CtrlState → CtrlState → Prop
  | accept (orig : OrigPkt) (s : CtrlState) : Step c s (recvTimingReq c s orig).2
  | respond (s : CtrlState) : Step c s (processRespondEvent c s)
  | issueRead (fromNvm : Bool) (i : Nat) (rt : Nat) (s : CtrlState) :
      Step c s (issueReadStep fromNvm i rt s)
  | issueWriteProbe (i : Nat) (rt : Nat) (s : CtrlState) :
      Step c s (issueWriteProbeStep c i rt s)
  | issueW (cf cnv : List MemPkt → Option Nat)
      (draining nvmWriteRespFull all_writes_nvm : Bool) (s : CtrlState) :
      Step c s (writeBranch cf cnv c draining nvmWriteRespFull all_writes_nvm s).2

/-- States reachable from the freshly constructed controller. -/
inductive Reachable (c : Config) : CtrlState → Prop
  | init : Reachable c initState
  | step {s s2 : CtrlState} : Reachable c s → Step c s s2 → Reachable c s2

/-- MemCtrl::getBurstWindow (mem_ctrl.cc:1502): the tick aligned down to the
    command window. -/
def getBurstWindow (W cmd_tick : Nat) : Nat := cmd_tick - cmd_tick % W

/-- The deferral loop of MemCtrl::verifySingleCmd (mem_ctrl.cc:1510), with a
    fuel argument in place of the unbounded while loop: while the window of
    burst_tick already holds max_cmds_per_burst commands, move one window
    later (updating cmd_at); then reserve the slot. -/
def verifySingleCmdGo (W : Nat) (maxCmds : Nat) (bt : List Nat) :
    Nat → Nat → Nat → Option (Nat × List Nat)
  | 0, _, _ => none
  | fuel + 1, cmd_at, burst_tick =>
    if maxCmds ≤ bt.count burst_tick then
      verifySingleCmdGo W maxCmds bt fuel (burst_tick + W) (burst_tick + W)
    else
      some (cmd_at, burst_tick :: bt)

/-- MemCtrl::verifySingleCmd: returns the issue tick of the command and the
    burstTicks multiset (a list, counted with List.count) with the new
    reservation. -/
def verifySingleCmd (W : Nat) (maxCmds : Nat) (bt : List Nat)
    (cmd_tick : Nat) (fuel : Nat) : Option (Nat × List Nat) :=
  verifySingleCmdGo W maxCmds bt fuel cmd_tick (getBurstWindow W cmd_tick)

/-- The burst_offset loop of MemCtrl::verifyMultiCmd (mem_ctrl.cc:1548): grow
    the offset by whole windows until first_cmd_offset + burst_offset reaches
    max_multi_cmd_split. -/
def burstOffsetLoop (W split f_off : Nat) : Nat → Nat → Option Nat
  | 0, _ => none
  | fuel + 1, off =>
    if f_off + off < split then burstOffsetLoop W split f_off fuel (off + W)
    else some off

/-- The main loop of MemCtrl::verifyMultiCmd (mem_ctrl.cc:1561): with the
    second command in the window of burst_tick and the first in the window of
    first_cmd_tick, shift the second a window later while its window is out of
    budget, and the first while its window is out of budget or the shift of
    the second would stretch the pair beyond max_multi_cmd_split (commands
    that started in the same window may end in consecutive windows). -/
def verifyMultiCmdGo (W : Nat) (maxCmds : Nat) (split : Nat) (bt : List Nat) :
    Nat → Nat → Nat → Nat → Option (Nat × Nat × Nat)
  | 0, _, _, _ => none
  | fuel + 1, cmd_at, burst_tick, first_cmd_tick =>
    let same_burst := burst_tick == first_cmd_tick
    let first_cnt := bt.count first_cmd_tick
    let second_cnt := if same_burst then first_cnt + 1 else bt.count burst_tick
    let first_ok := decide (first_cnt < maxCmds)
    let second_ok := decide (second_cnt < maxCmds)
    if first_ok && second_ok then
      some (cmd_at, burst_tick, first_cmd_tick)
    else
      let bc : Nat × Nat :=
        if !second_ok then (burst_tick + W, burst_tick + W) else (burst_tick, cmd_at)
      let gap_violated := !same_burst && decide (split < bc.1 - first_cmd_tick)
      let first2 :=
        if !first_ok || (!second_ok && gap_violated) then first_cmd_tick + W
        else first_cmd_tick
      verifyMultiCmdGo W maxCmds split bt fuel bc.2 bc.1 first2

/-- MemCtrl::verifyMultiCmd: returns the issue tick of the second command, the
    two chosen windows, and burstTicks with both reservations. -/
def verifyMultiCmd (W : Nat) (maxCmds : Nat) (split : Nat) (bt : List Nat)
    (cmd_tick : Nat) (fuel : Nat) : Option (Nat × Nat × Nat × List Nat) :=
  let burst_tick := getBurstWindow W cmd_tick
  let f_off := cmd_tick % W
  match burstOffsetLoop W split f_off fuel 0 with
  | none => none
  | some off =>
    let first_cmd_tick := burst_tick - min off burst_tick
    match verifyMultiCmdGo W maxCmds split bt fuel cmd_tick burst_tick first_cmd_tick with
    | none => none
    | some (cmd_at, b, f) => some (cmd_at, b, f, b :: f :: bt)

/-- A configuration shared by the concrete scenarios below: 64-byte bursts on
    both tiers, a 4 KiB DRAM cache (64 lines), no write allocation, and small
    queue bounds. -/
def demoCfg : Config :=
  { burstShift := 6, nvmBurstShift := 6, numEntries := 64,
    writeAllocatePolicy := false, readBufferSize := 16, writeBufferSize := 16,
    maxNvmReadQueueSize := 8, maxNvmWriteQueueSize := 8, maxDramFillQueueSize := 8,
    writeLowThreshold := 8, minWritesPerSwitch := 2 }

/-- A pending tag-check write packet for burst [0, 64) sitting in the write
    queue. -/
def c1WrPkt : MemPkt :=
  { addr := 0, size := 64, dram := true, read := true,
    read_before_write := true, is_waiting_for_nvm_read := false, readyTime := 0,
    burstHelper := none, origAddr := 0, origSize := 64, origIsRead := false }

/-- A pending fill packet for burst [64, 128) sitting in the DRAM fill
    queue, not waiting on an NVM read. -/
def c1FillPkt : MemPkt := { c1WrPkt with addr := 64, origAddr := 64, read := false }

/-- Controller state holding the two packets above. -/
def c1State : CtrlState :=
  { initState with
      writeQueue := [c1WrPkt], isInWriteQueue := [0],
      dramFillQueue := [c1FillPkt], dramFillQueueSize := 1 }

/-- A two-burst read covering [0, 128): burst one is covered by the queued
    write, burst two by the queued fill. -/
def c1Orig : OrigPkt := { addr := 0, size := 128, isRead := true }

/-- The completion-time packet of the C5 scenario: the tag-check read of a
    write to address 64 (line 1). -/
def c5Pkt : MemPkt :=
  { addr := 64, size := 64, dram := true, read := true,
    read_before_write := true, is_waiting_for_nvm_read := false, readyTime := 0,
    burstHelper := none, origAddr := 64, origSize := 64, origIsRead := false }

/-- State of the C5 scenario: line 1 is valid and dirty with a mismatching
    tag and stored backing address 1024; all queues empty; the packet above
    tops the completion queue. -/
def c5State : CtrlState :=
  { initState with
      respQueue := [(100, c5Pkt)],
      tagStoreDC := fun i => if i == 1 then ⟨0, 5, true, true, 1024⟩ else initTagEntry }

/-- Configuration of the C7 scenario: fast-tier write queue capacity 2. -/
def c7Cfg : Config := { demoCfg with writeBufferSize := 2 }

/-- State of the C7 scenario: the write queue holds capacity minus one
    entries (one of two). -/
def c7State : CtrlState :=
  { initState with writeQueue := [c1WrPkt], isInWriteQueue := [0] }

/-- A non-mergeable single-burst write (its aligned address 128 is not in
    isInWriteQueue). -/
def c7Orig : OrigPkt := { addr := 128, size := 64, isRead := false }

/-- A second pending write packet, for burst [64, 128). -/
def c7Pkt2 : MemPkt := { c1WrPkt with addr := 64, origAddr := 64 }

/-- State with the write queue at full capacity (two entries of two). -/
def c7FullState : CtrlState :=
  { initState with writeQueue := [c1WrPkt, c7Pkt2], isInWriteQueue := [0, 64] }

/-- Configuration of the C2 witness scenario: fill queue capacity zero, so
    the fill queue is always full. -/
def c2Cfg : Config := { demoCfg with maxDramFillQueueSize := 0 }

/-- A pure read packet (no tag-check flag) for address 0. -/
def c2Pkt : MemPkt :=
  { addr := 0, size := 64, dram := true, read := true,
    read_before_write := false, is_waiting_for_nvm_read := false, readyTime := 0,
    burstHelper := none, origAddr := 0, origSize := 64, origIsRead := true }

/-- State of the C2 witness scenario: the pure read tops the completion
    queue, the tag store is cold, so the read classifies as a miss needing
    the NVM read queue and the (full) fill queue. -/
def c2State : CtrlState := { initState with respQueue := [(7, c2Pkt)] }

/-- A queued NVM write packet covering bytes [0, 64), used by the C6
    witness. -/
def c6Pkt : MemPkt := { c2Pkt with dram := false, read := false, origIsRead := false }

/-- State of the C6 witness scenario: one covering packet in the NVM write
    queue. -/
def c6State : CtrlState :=
  { initState with nvmWriteQueue := [c6Pkt], nvmWriteQueueSize := 1 }

/-- A single-burst read of bytes [16, 48), fully inside the queued packet
    above. -/
def c6Orig : OrigPkt := { addr := 16, size := 32, isRead := true }

/-- A fill packet still waiting on its NVM read, used by the C9 witness. -/
def c9Pkt : MemPkt := { c1FillPkt with is_waiting_for_nvm_read := true }

/-- State of the C9 witness scenario: the waiting fill packet is the only
    write-side candidate. -/
def c9State : CtrlState :=
  { initState with dramFillQueue := [c9Pkt], dramFillQueueSize := 1 }

/-- State of the C10 witness scenario: line 0 is valid with the tag of
    address 0, and the pure read of address 0 tops the completion queue. -/
def c10State : CtrlState :=
  { initState with
      respQueue := [(5, c2Pkt)],
      tagStoreDC := fun i => if i == 0 then ⟨0, 0, true, false, 0⟩ else initTagEntry }

/-!
Theorems.  Each claim of the specification is settled by exactly one theorem
below, preceded by shared helper lemmas.
-/

theorem iterateStep_inv {α β : Type} (f : α → α) (g : α → β)
    (hf : ∀ a, g (f a) = g a) : ∀ (n : Nat) (a : α), g (iterateStep f n a) = g a := by
  intro n
  induction n with
  | zero => intro a; rfl
  | succ n ih => intro a; rw [iterateStep, ih, hf]

theorem divCeil_eq_one {x b : Nat} (h1 : 0 < x) (h2 : x ≤ b) : divCeil x b = 1 := by
  unfold divCeil
  exact Nat.div_eq_of_lt_le (by omega) (by omega)

/-- C3: at the failing input (numEntries = 64, i.e. a 4 KiB cache of 64-byte
    lines, address 4096) the index computed by the source,
    bits(addr, ceilLog2(64) + ceilLog2(numEntries), ceilLog2(64)), is 64: one
    bit wider than the spec formula (addr / lineSize) mod numLines, which
    gives 0, and not below numLines = 64, so tagStoreDC (resized to exactly
    numLines entries at mem_ctrl.cc:111) is indexed out of bounds.  The tag
    half of the claim does hold at this input: returnTag gives
    addr >> (indexBits + blockBits) = 1. -/
theorem c3_index_out_of_bounds :
    dcIndex 64 4096 = 64 ∧ ¬ (dcIndex 64 4096 < 64) ∧
    (4096 / 64) % 64 = 0 ∧ returnTag 64 4096 = 4096 >>> (6 + 6) := by
  decide

/-- C1: an accepted request can be silently dropped.  The two-burst read
    c1Orig is accepted (recvTimingReq returns true) while burst one is
    forwarded from the write queue and burst two from the fill queue; because
    addToReadQueue compares each serviced counter to the burst count
    separately (mem_ctrl.cc:511), neither comparison fires: no response is
    recorded, no MemPacket is created, and no queue changes, so apart from the
    received-packet counter the state is untouched and the request can never
    be finalized. -/
theorem c1_mixed_forwarded_read_dropped :
    (recvTimingReq demoCfg c1State c1Orig).1 = true ∧
    (recvTimingReq demoCfg c1State c1Orig).2.responses = [] ∧
    (recvTimingReq demoCfg c1State c1Orig).2.readQueue = [] ∧
    (recvTimingReq demoCfg c1State c1Orig).2.writeQueue = [c1WrPkt] ∧
    (recvTimingReq demoCfg c1State c1Orig).2.dramFillQueue = [c1FillPkt] ∧
    (recvTimingReq demoCfg c1State c1Orig).2.nvmReadQueue = [] ∧
    (recvTimingReq demoCfg c1State c1Orig).2.nvmWriteQueue = [] ∧
    (recvTimingReq demoCfg c1State c1Orig).2.respQueue = [] := by
  decide

/-- C5: at completion time of the tag-check read of a write, with the line
    valid, dirty and tag-mismatched (DirtyMiss) and the required NVM write
    queue not full, under no-allocate the handler enqueues only the victim
    packet (address 1024, the stored backing address of the line): the clean
    miss enqueue of the write itself (address 64, as handleCleanMiss performs
    in the same configuration) never happens, so the write data is dropped. -/
theorem c5_dirty_miss_write_noalloc_drops_write :
    ((processRespondEvent demoCfg c5State).nvmWriteQueue.map (fun p => p.addr)) = [1024] ∧
    (processRespondEvent demoCfg c5State).readQueue = [] ∧
    (processRespondEvent demoCfg c5State).writeQueue = [] ∧
    (processRespondEvent demoCfg c5State).nvmReadQueue = [] ∧
    (processRespondEvent demoCfg c5State).dramFillQueue = [] ∧
    (processRespondEvent demoCfg c5State).respQueue = [] ∧
    (processRespondEvent demoCfg c5State).responses = [] ∧
    ((handleCleanMiss demoCfg { c5State with dramHit := false } c5Pkt).nvmWriteQueue.map
      (fun p => p.addr)) = [64] := by
  decide

/-- C7 counterexample: with the write queue at capacity minus one (one entry
    of two), one additional non-mergeable single-burst write is accepted, not
    refused, and the writeQueueFull check is false. -/
theorem c7_capacity_minus_one_accepted :
    (recvTimingReq c7Cfg c7State c7Orig).1 = true ∧
    writeQueueFull c7Cfg c7State 1 = false := by
  decide

/-- C7 (amended): a single-burst non-mergeable write is refused exactly when
    the write queue cannot hold one more entry, i.e. when it already holds
    writeBufferSize entries: then submit returns false, the write-retry flag
    is set and the queue and its address set are unchanged; once one write has
    drained (the queue is again below capacity), resubmitting the same request
    succeeds and appends one packet for its address. -/
theorem c7_full_refusal_then_drain_accepts (c : Config) (s1 s2 : CtrlState)
    (orig : OrigPkt)
    (hw : orig.isRead = false)
    (hsz : 0 < orig.size)
    (hone : orig.addr % 2 ^ c.burstShift + orig.size ≤ 2 ^ c.burstShift)
    (hfull : c.writeBufferSize ≤ s1.writeQueue.length)
    (hroom : s2.writeQueue.length < c.writeBufferSize)
    (hnm : burstAlign c true orig.addr ∉ s2.isInWriteQueue) :
    (recvTimingReq c s1 orig).1 = false ∧
    (recvTimingReq c s1 orig).2.retryWrReq = true ∧
    (recvTimingReq c s1 orig).2.writeQueue = s1.writeQueue ∧
    (recvTimingReq c s1 orig).2.isInWriteQueue = s1.isInWriteQueue ∧
    (recvTimingReq c s2 orig).1 = true ∧
    ∃ p, (recvTimingReq c s2 orig).2.writeQueue = s2.writeQueue ++ [p] ∧
      p.addr = orig.addr ∧ p.read_before_write = true := by
  have hc : divCeil (orig.addr % 2 ^ c.burstShift + orig.size) (2 ^ c.burstShift) = 1 :=
    divCeil_eq_one (by omega) hone
  have hfull1 : writeQueueFull c s1 1 = true := by
    simp only [writeQueueFull, CtrlState.totalWriteQueueSize, decide_eq_true_eq]
    omega
  have hroom1 : writeQueueFull c s2 1 = false := by
    simp only [writeQueueFull, CtrlState.totalWriteQueueSize, decide_eq_false_iff_not,
      not_lt]
    omega
  have hm : decide (burstAlign c true orig.addr ∈ s2.isInWriteQueue) = false := by
    simpa using hnm
  have e1 : recvTimingReq c s1 orig = (false, { s1 with retryWrReq := true }) := by
    simp [recvTimingReq, hw, hc, hfull1]
  have e2 : recvTimingReq c s2 orig =
      (true, { addToWriteQueue c s2 orig 1 with
                 totalReceivedPkts := s2.totalReceivedPkts + 1 }) := by
    simp [recvTimingReq, hw, hc, hroom1]
  refine ⟨by rw [e1], by rw [e1], by rw [e1], by rw [e1], by rw [e2], ?_⟩
  rw [e2]
  simp only [addToWriteQueue, iterateStep, writeLoopStep, hm, Bool.not_false, if_true]
  exact ⟨_, rfl, rfl, rfl⟩

/-- Witness for C7: with write capacity two, a full queue refuses the write
    and leaves the queue alone, and the capacity-minus-one state accepts the
    same request, appending one packet. -/
theorem c7_full_refusal_then_drain_accepts_witness :
    (recvTimingReq c7Cfg c7FullState c7Orig).1 = false ∧
    (recvTimingReq c7Cfg c7FullState c7Orig).2.retryWrReq = true ∧
    (recvTimingReq c7Cfg c7FullState c7Orig).2.writeQueue = c7FullState.writeQueue ∧
    (recvTimingReq c7Cfg c7FullState c7Orig).2.isInWriteQueue = c7FullState.isInWriteQueue ∧
    (recvTimingReq c7Cfg c7State c7Orig).1 = true ∧
    ∃ p, (recvTimingReq c7Cfg c7State c7Orig).2.writeQueue = c7State.writeQueue ++ [p] ∧
      p.addr = c7Orig.addr ∧ p.read_before_write = true :=
  c7_full_refusal_then_drain_accepts c7Cfg c7FullState c7State c7Orig
    (by decide) (by decide) (by decide) (by decide) (by decide) (by decide)

theorem handleCleanMiss_blocked (c : Config) (s : CtrlState) (pkt : MemPkt)
    (hrd : pkt.read = true)
    (hml : pkt.read_before_write = false ∨ c.writeAllocatePolicy = true)
    (hfull : nvmReadQueueFull c s 1 = true ∨ dramFillQueueFull c s 1 = true) :
    handleCleanMiss c s pkt =
      { s with dramHit := false, retryRespEvent := true,
               retryNVMRdReq := s.retryNVMRdReq || nvmReadQueueFull c s 1,
               retryDRAMFillReq := s.retryDRAMFillReq || dramFillQueueFull c s 1 } := by
  have hnr : nvmReadQueueFull c { s with dramHit := false } 1 = nvmReadQueueFull c s 1 := rfl
  have hdf : dramFillQueueFull c { s with dramHit := false } 1 = dramFillQueueFull c s 1 := rfl
  cases hrbw : pkt.read_before_write with
  | false =>
    rcases h1 : nvmReadQueueFull c s 1 <;> rcases h2 : dramFillQueueFull c s 1 <;>
      simp_all [handleCleanMiss]
  | true =>
    rcases hml with hml | hml
    · rw [hrbw] at hml; cases hml
    · rcases h1 : nvmReadQueueFull c s 1 <;> rcases h2 : dramFillQueueFull c s 1 <;>
        simp_all [handleCleanMiss]

theorem handleDirtyMiss_blocked (c : Config) (s : CtrlState) (pkt : MemPkt)
    (hrd : pkt.read = true)
    (hml : pkt.read_before_write = false ∨ c.writeAllocatePolicy = true)
    (hfull : nvmReadQueueFull c s 1 = true ∨ nvmWriteQueueFull c s 1 = true ∨
      dramFillQueueFull c s 1 = true) :
    handleDirtyMiss c s pkt =
      { s with dramHit := false, retryRespEvent := true,
               retryNVMRdReq := s.retryNVMRdReq || nvmReadQueueFull c s 1,
               retryNVMWrReq := s.retryNVMWrReq || nvmWriteQueueFull c s 1,
               retryDRAMFillReq := s.retryDRAMFillReq || dramFillQueueFull c s 1 } := by
  have hnr : nvmReadQueueFull c { s with dramHit := false } 1 = nvmReadQueueFull c s 1 := rfl
  have hnw : nvmWriteQueueFull c { s with dramHit := false } 1 = nvmWriteQueueFull c s 1 := rfl
  have hdf : dramFillQueueFull c { s with dramHit := false } 1 = dramFillQueueFull c s 1 := rfl
  cases hrbw : pkt.read_before_write with
  | false =>
    rcases h1 : nvmReadQueueFull c s 1 <;> rcases h2 : nvmWriteQueueFull c s 1 <;>
      rcases h3 : dramFillQueueFull c s 1 <;> simp_all [handleDirtyMiss]
  | true =>
    rcases hml with hml | hml
    · rw [hrbw] at hml; cases hml
    · rcases h1 : nvmReadQueueFull c s 1 <;> rcases h2 : nvmWriteQueueFull c s 1 <;>
        rcases h3 : dramFillQueueFull c s 1 <;> simp_all [handleDirtyMiss]

/-- C2: when the classification of the completion-queue head needs several
    queues (a pure read, or a write under the allocate policy, classifying as
    a clean or dirty miss) and one of the required queues is full, the
    respond pass commits nothing: all five work queues, their tracked sizes,
    the tag store, the responses and the completion queue itself (head kept)
    are unchanged, and the retry flag of every full required queue is set, so
    a later pass redoes the whole enqueue attempt wholesale. -/
theorem c2_multi_queue_all_or_nothing (c : Config) (s : CtrlState) (t : Nat)
    (pkt : MemPkt) (rest : List (Nat × MemPkt))
    (hq : s.respQueue = (t, pkt) :: rest)
    (hdram : pkt.dram = true)
    (hrd : pkt.read = true)
    (hml : pkt.read_before_write = false ∨ c.writeAllocatePolicy = true)
    (hmiss : (s.tagStoreDC (dcIndex c.numEntries pkt.addr)).valid_line = false ∨
      ¬ (s.tagStoreDC (dcIndex c.numEntries pkt.addr)).tag = returnTag c.numEntries pkt.addr)
    (hfull : nvmReadQueueFull c s 1 = true ∨ dramFillQueueFull c s 1 = true ∨
      ((s.tagStoreDC (dcIndex c.numEntries pkt.addr)).valid_line = true ∧
       (s.tagStoreDC (dcIndex c.numEntries pkt.addr)).dirty_line = true ∧
       nvmWriteQueueFull c s 1 = true)) :
    (processRespondEvent c s).respQueue = s.respQueue ∧
    (processRespondEvent c s).readQueue = s.readQueue ∧
    (processRespondEvent c s).writeQueue = s.writeQueue ∧
    (processRespondEvent c s).nvmReadQueue = s.nvmReadQueue ∧
    (processRespondEvent c s).nvmWriteQueue = s.nvmWriteQueue ∧
    (processRespondEvent c s).dramFillQueue = s.dramFillQueue ∧
    (processRespondEvent c s).nvmReadQueueSize = s.nvmReadQueueSize ∧
    (processRespondEvent c s).nvmWriteQueueSize = s.nvmWriteQueueSize ∧
    (processRespondEvent c s).dramFillQueueSize = s.dramFillQueueSize ∧
    (processRespondEvent c s).tagStoreDC = s.tagStoreDC ∧
    (processRespondEvent c s).responses = s.responses ∧
    (nvmReadQueueFull c s 1 = true → (processRespondEvent c s).retryNVMRdReq = true) ∧
    (dramFillQueueFull c s 1 = true → (processRespondEvent c s).retryDRAMFillReq = true) ∧
    ((s.tagStoreDC (dcIndex c.numEntries pkt.addr)).valid_line = true →
     (s.tagStoreDC (dcIndex c.numEntries pkt.addr)).dirty_line = true →
     nvmWriteQueueFull c s 1 = true →
     (processRespondEvent c s).retryNVMWrReq = true) := by
  have hnr : nvmReadQueueFull c { s with dramHit := false } 1 = nvmReadQueueFull c s 1 := rfl
  have hnw : nvmWriteQueueFull c { s with dramHit := false } 1 = nvmWriteQueueFull c s 1 := rfl
  have hdf : dramFillQueueFull c { s with dramHit := false } 1 = dramFillQueueFull c s 1 := rfl
  cases hv : (s.tagStoreDC (dcIndex c.numEntries pkt.addr)).valid_line with
  | false =>
    have hf2 : nvmReadQueueFull c s 1 = true ∨ dramFillQueueFull c s 1 = true := by
      rcases hfull with h | h | h
      · exact Or.inl h
      · exact Or.inr h
      · rw [hv] at h; exact absurd h.1 (by simp)
    have hcm := handleCleanMiss_blocked c { s with dramHit := false } pkt hrd
      (by simpa using hml) (by rw [hnr, hdf]; exact hf2)
    rw [hnr, hdf] at hcm
    simp only [processRespondEvent, hq, hdram, hv, Bool.not_false, Bool.not_true,
      if_true, if_false, Bool.false_eq_true, Bool.true_eq_false, eq_self_iff_true,
      ite_true, ite_false]
    rw [← hq, hcm]
    refine ⟨rfl, rfl, rfl, rfl, rfl, rfl, rfl, rfl, rfl, rfl, rfl, ?_, ?_, ?_⟩
    · intro h; simp [h]
    · intro h; simp [h]
    · intro h; exact h.elim
  | true =>
    have htag : ¬ (s.tagStoreDC (dcIndex c.numEntries pkt.addr)).tag =
        returnTag c.numEntries pkt.addr := by
      rcases hmiss with h | h
      · rw [hv] at h; cases h
      · exact h
    have hbeq : ((s.tagStoreDC (dcIndex c.numEntries pkt.addr)).tag ==
        returnTag c.numEntries pkt.addr) = false := by
      simpa using htag
    cases hd : (s.tagStoreDC (dcIndex c.numEntries pkt.addr)).dirty_line with
    | false =>
      have hf2 : nvmReadQueueFull c s 1 = true ∨ dramFillQueueFull c s 1 = true := by
        rcases hfull with h | h | h
        · exact Or.inl h
        · exact Or.inr h
        · rw [hd] at h; exact absurd h.2.1 (by simp)
      have hcm := handleCleanMiss_blocked c { s with dramHit := false } pkt hrd
        (by simpa using hml) (by rw [hnr, hdf]; exact hf2)
      rw [hnr, hdf] at hcm
      simp only [processRespondEvent, hq, hdram, hv, hd, hbeq, Bool.not_false,
        Bool.not_true, if_true, if_false, Bool.false_eq_true, Bool.true_eq_false,
        eq_self_iff_true, ite_true, ite_false]
      rw [← hq, hcm]
      refine ⟨rfl, rfl, rfl, rfl, rfl, rfl, rfl, rfl, rfl, rfl, rfl, ?_, ?_, ?_⟩
      · intro h; simp [h]
      · intro h; simp [h]
      · intro _ h; exact h.elim
    | true =>
      have hf3 : nvmReadQueueFull c s 1 = true ∨ nvmWriteQueueFull c s 1 = true ∨
          dramFillQueueFull c s 1 = true := by
        rcases hfull with h | h | h
        · exact Or.inl h
        · exact Or.inr (Or.inr h)
        · exact Or.inr (Or.inl h.2.2)
      have hdm := handleDirtyMiss_blocked c { s with dramHit := false } pkt hrd
        (by simpa using hml) (by rw [hnr, hnw, hdf]; exact hf3)
      rw [hnr, hnw, hdf] at hdm
      simp only [processRespondEvent, hq, hdram, hv, hd, hbeq, Bool.not_false,
        Bool.not_true, if_true, if_false, Bool.false_eq_true, Bool.true_eq_false,
        eq_self_iff_true, ite_true, ite_false]
      rw [← hq, hdm]
      refine ⟨rfl, rfl, rfl, rfl, rfl, rfl, rfl, rfl, rfl, rfl, rfl, ?_, ?_, ?_⟩
      · intro h; simp [h]
      · intro h; simp [h]
      · intro _ _ h; simp [h]

/-- Witness for C2: with a zero-capacity fill queue and a cold tag store, the
    respond pass of a pure read keeps the completion queue and the fill queue
    untouched and raises the fill retry flag. -/
theorem c2_multi_queue_all_or_nothing_witness :
    (processRespondEvent c2Cfg c2State).respQueue = c2State.respQueue ∧
    (processRespondEvent c2Cfg c2State).dramFillQueue = c2State.dramFillQueue ∧
    (processRespondEvent c2Cfg c2State).tagStoreDC = c2State.tagStoreDC ∧
    (processRespondEvent c2Cfg c2State).retryDRAMFillReq = true := by
  have h := c2_multi_queue_all_or_nothing c2Cfg c2State 7 c2Pkt []
    rfl rfl rfl (Or.inl rfl) (Or.inl rfl) (Or.inr (Or.inl (by decide)))
  exact ⟨h.1, h.2.2.2.2.2.1, h.2.2.2.2.2.2.2.2.2.1, h.2.2.2.2.2.2.2.2.2.2.2.2.1 (by decide)⟩

/-- C9: in the WRITE bus state, a chosen fill-queue candidate that still
    waits on its backing (NVM) read is never issued: the pass issues nothing
    and immediately sets the next bus state to READ; and any packet the pass
    does issue from the fill queue has the waiting flag clear. -/
theorem c9_waiting_fill_blocks (cf cnv : List MemPkt → Option Nat) (c : Config)
    (draining wrf awn : Bool) (s : CtrlState) :
    (∀ i p, (if s.dramFillQueue.isEmpty then none else cf s.dramFillQueue) = some i →
        s.dramFillQueue[i]? = some p → p.is_waiting_for_nvm_read = true →
        writeBranch cf cnv c draining wrf awn s =
          (WriteIssue.blocked, { s with busStateNext := BusState.READ })) ∧
    (∀ p s2, writeBranch cf cnv c draining wrf awn s = (WriteIssue.issued true p, s2) →
        p.is_waiting_for_nvm_read = false) := by
  constructor
  · intro i p hsel hp hw
    unfold writeBranch
    simp only [hsel, hp, hw]
    rfl
  · intro p s2 h
    unfold writeBranch at h
    rcases hsel : (if s.dramFillQueue.isEmpty then none else cf s.dramFillQueue) with _ | i
    · simp only [hsel] at h
      rcases hnv : (if s.nvmWriteQueue.isEmpty then none else cnv s.nvmWriteQueue) with _ | j
      · simp only [hnv] at h
        exact absurd h (by simp)
      · simp only [hnv] at h
        rcases hj : s.nvmWriteQueue[j]? with _ | q
        · simp only [hj] at h
          exact absurd h (by simp)
        · simp only [hj] at h
          exact absurd h (by simp)
    · simp only [hsel] at h
      rcases hpi : s.dramFillQueue[i]? with _ | q
      · simp only [hpi] at h
        exact absurd h (by simp)
      · simp only [hpi] at h
        cases hwq : q.is_waiting_for_nvm_read with
        | true =>
          simp only [hwq] at h
          exact absurd h (by simp)
        | false =>
          simp only [hwq, Bool.false_eq_true, if_false, Prod.mk.injEq,
            WriteIssue.issued.injEq] at h
          rcases h with ⟨⟨_, hqp⟩, _⟩
          rw [← hqp]
          exact hwq

/-- Witness for C9: the single waiting fill packet blocks the pass and turns
    the bus to READ. -/
theorem c9_waiting_fill_blocks_witness :
    writeBranch (fun _ => some 0) (fun _ => none) demoCfg false false false c9State =
      (WriteIssue.blocked, { c9State with busStateNext := BusState.READ }) :=
  (c9_waiting_fill_blocks (fun _ => some 0) (fun _ => none) demoCfg
    false false false c9State).1 0 c9Pkt rfl rfl rfl

theorem respondPhase_frame (s : CtrlState) (pkt : MemPkt) :
    (respondPhase s pkt).readQueue = s.readQueue ∧
    (respondPhase s pkt).writeQueue = s.writeQueue ∧
    (respondPhase s pkt).nvmReadQueue = s.nvmReadQueue ∧
    (respondPhase s pkt).nvmWriteQueue = s.nvmWriteQueue ∧
    (respondPhase s pkt).dramFillQueue = s.dramFillQueue ∧
    (respondPhase s pkt).respQueue = s.respQueue ∧
    (respondPhase s pkt).tagStoreDC = s.tagStoreDC ∧
    (respondPhase s pkt).nvmReadQueueSize = s.nvmReadQueueSize ∧
    (respondPhase s pkt).nvmWriteQueueSize = s.nvmWriteQueueSize ∧
    (respondPhase s pkt).dramFillQueueSize = s.dramFillQueueSize ∧
    (respondPhase s pkt).isInWriteQueue = s.isInWriteQueue ∧
    ((respondPhase s pkt).responses = s.responses ∨
     (respondPhase s pkt).responses = s.responses ++ [(pkt.origAddr, pkt.dram)]) := by
  unfold respondPhase
  split
  · rcases pkt.burstHelper with _ | h
    · simp only []
      split
      · exact ⟨rfl, rfl, rfl, rfl, rfl, rfl, rfl, rfl, rfl, rfl, rfl, Or.inr rfl⟩
      · exact ⟨rfl, rfl, rfl, rfl, rfl, rfl, rfl, rfl, rfl, rfl, rfl, Or.inl rfl⟩
    · simp only []
      split
      · split
        · exact ⟨rfl, rfl, rfl, rfl, rfl, rfl, rfl, rfl, rfl, rfl, rfl, Or.inr rfl⟩
        · exact ⟨rfl, rfl, rfl, rfl, rfl, rfl, rfl, rfl, rfl, rfl, rfl, Or.inl rfl⟩
      · exact ⟨rfl, rfl, rfl, rfl, rfl, rfl, rfl, rfl, rfl, rfl, rfl, Or.inl rfl⟩
  · exact ⟨rfl, rfl, rfl, rfl, rfl, rfl, rfl, rfl, rfl, rfl, rfl, Or.inl rfl⟩

/-- C10: when the completion event processes a fast-tier read packet with the
    tag-check flag clear whose line is valid with a matching tag (a pure read
    hit), the tag store and all five work queues are untouched; the entry is
    popped from the completion queue and the only possible response is the one
    for the original request. -/
theorem c10_pure_read_hit_frame (c : Config) (s : CtrlState) (t : Nat)
    (pkt : MemPkt) (rest : List (Nat × MemPkt))
    (hq : s.respQueue = (t, pkt) :: rest)
    (hdram : pkt.dram = true)
    (hrd : pkt.read = true)
    (hrbw : pkt.read_before_write = false)
    (hvalid : (s.tagStoreDC (dcIndex c.numEntries pkt.addr)).valid_line = true)
    (htag : (s.tagStoreDC (dcIndex c.numEntries pkt.addr)).tag =
      returnTag c.numEntries pkt.addr)
    (hretry : s.retryRespEvent = false) :
    (processRespondEvent c s).tagStoreDC = s.tagStoreDC ∧
    (processRespondEvent c s).readQueue = s.readQueue ∧
    (processRespondEvent c s).writeQueue = s.writeQueue ∧
    (processRespondEvent c s).nvmReadQueue = s.nvmReadQueue ∧
    (processRespondEvent c s).nvmWriteQueue = s.nvmWriteQueue ∧
    (processRespondEvent c s).dramFillQueue = s.dramFillQueue ∧
    (processRespondEvent c s).respQueue = rest ∧
    ((processRespondEvent c s).responses = s.responses ∨
     (processRespondEvent c s).responses = s.responses ++ [(pkt.origAddr, true)]) := by
  have hbeq : ((s.tagStoreDC (dcIndex c.numEntries pkt.addr)).tag ==
      returnTag c.numEntries pkt.addr) = true := by
    simp [htag]
  have hhit : handleHit c { s with dramHit := false } pkt =
      { s with dramHit := true } := by
    simp [handleHit, hrd, hrbw]
  have hframe := respondPhase_frame { s with dramHit := true } pkt
  simp only [processRespondEvent, hq, hdram, hvalid, hbeq, Bool.not_true, Bool.not_false,
    Bool.false_eq_true, Bool.true_eq_false, if_false, if_true, eq_self_iff_true,
    ite_true, ite_false]
  rw [← hq, hhit]
  have hcond : ¬ (({ s with dramHit := true } : CtrlState).retryRespEvent = true) := by
    simp only [show ({ s with dramHit := true } : CtrlState).retryRespEvent = s.retryRespEvent
      from rfl, hretry]
    simp
  rw [if_neg hcond]
  rcases hframe with ⟨f1, f2, f3, f4, f5, _, f7, _, _, _, _, f12⟩
  refine ⟨f7, f1, f2, f3, f4, f5, rfl, ?_⟩
  rcases f12 with f12 | f12
  · exact Or.inl f12
  · rw [hdram] at f12; exact Or.inr f12

/-- Witness for C10: a concrete pure read hit pops the completion queue,
    answers the request, and leaves the tag store and the queues alone. -/
theorem burstAlign_dram (c : Config) (a : Nat) :
    burstAlign c true a = a / 2 ^ c.burstShift * 2 ^ c.burstShift := by
  simp [burstAlign, Nat.shiftRight_eq_div_pow, Nat.shiftLeft_eq]

theorem burstAlign_eq_of_covered (c : Config) (p : MemPkt) (a : Nat)
    (hwin : p.addr + p.size ≤ burstAlign c true p.addr + 2 ^ c.burstShift)
    (h1 : p.addr ≤ a) (h2 : a < p.addr + p.size) :
    burstAlign c true a = burstAlign c true p.addr := by
  rw [burstAlign_dram] at hwin
  rw [burstAlign_dram, burstAlign_dram]
  have hq : a / 2 ^ c.burstShift = p.addr / 2 ^ c.burstShift := by
    have hlo : p.addr / 2 ^ c.burstShift * 2 ^ c.burstShift ≤ a :=
      le_trans (Nat.div_mul_le_self _ _) h1
    have hmul : (p.addr / 2 ^ c.burstShift + 1) * 2 ^ c.burstShift =
        p.addr / 2 ^ c.burstShift * 2 ^ c.burstShift + 2 ^ c.burstShift := by ring
    refine Nat.div_eq_of_lt_le hlo ?_
    rw [hmul]
    exact lt_of_lt_of_le h2 hwin
  rw [hq]

theorem addToReadQueue_one_found (c : Config) (s : CtrlState) (orig : OrigPkt)
    (hor : ((decide (burstAlign c true orig.addr ∈ s.isInWriteQueue) &&
        s.writeQueue.any (fun q => coveredBy q orig.addr
          (min (orig.addr - orig.addr % 2 ^ c.burstShift + 2 ^ c.burstShift)
            (orig.addr + orig.size) - orig.addr))) ||
      s.dramFillQueue.any (fun q => coveredBy q orig.addr
        (min (orig.addr - orig.addr % 2 ^ c.burstShift + 2 ^ c.burstShift)
          (orig.addr + orig.size) - orig.addr)) ||
      s.nvmWriteQueue.any (fun q => coveredBy q orig.addr
        (min (orig.addr - orig.addr % 2 ^ c.burstShift + 2 ^ c.burstShift)
          (orig.addr + orig.size) - orig.addr))) = true) :
    ∃ b, addToReadQueue c s orig 1 =
      { s with responses := s.responses ++ [(orig.addr, b)] } := by
  rcases hW2 : (decide (burstAlign c true orig.addr ∈ s.isInWriteQueue) &&
      s.writeQueue.any (fun q => coveredBy q orig.addr
        (min (orig.addr - orig.addr % 2 ^ c.burstShift + 2 ^ c.burstShift)
          (orig.addr + orig.size) - orig.addr))) with _ | _ <;>
  rcases hF2 : s.dramFillQueue.any (fun q => coveredBy q orig.addr
      (min (orig.addr - orig.addr % 2 ^ c.burstShift + 2 ^ c.burstShift)
        (orig.addr + orig.size) - orig.addr)) with _ | _ <;>
  rcases hN2 : s.nvmWriteQueue.any (fun q => coveredBy q orig.addr
      (min (orig.addr - orig.addr % 2 ^ c.burstShift + 2 ^ c.burstShift)
        (orig.addr + orig.size) - orig.addr)) with _ | _ <;>
    first
      | (rw [hW2, hF2, hN2] at hor; exact absurd hor Bool.false_ne_true)
      | (refine ⟨false, ?_⟩
         simp [addToReadQueue, iterateStep, readLoopStep, hW2, hF2, hN2]
         done)
      | (refine ⟨true, ?_⟩
         simp [addToReadQueue, iterateStep, readLoopStep, hW2, hF2, hN2]
         done)

/-- C6: an accepted single-burst read whose byte range is fully inside the
    range of a packet held in the fast-tier write queue, the fill queue or
    the NVM write queue (the packet not waiting on an NVM read) is answered
    immediately at admission time: recvTimingReq returns true, one response
    for the request is recorded, and no MemPacket enters any queue.  The two
    invariant hypotheses about the write queue (each write packet lies inside
    one burst window and has its aligned address in isInWriteQueue) are the
    ones the admission path maintains by construction. -/
theorem c6_forwarded_read_immediate_finalize (c : Config) (s : CtrlState)
    (orig : OrigPkt) (p : MemPkt)
    (hr : orig.isRead = true)
    (hsz : 0 < orig.size)
    (hone : orig.addr % 2 ^ c.burstShift + orig.size ≤ 2 ^ c.burstShift)
    (hnotfull : readQueueFull c s 1 = false)
    (hwin : ∀ q ∈ s.writeQueue,
      q.addr + q.size ≤ burstAlign c true q.addr + 2 ^ c.burstShift)
    (hset : ∀ q ∈ s.writeQueue, burstAlign c true q.addr ∈ s.isInWriteQueue)
    (hp : p ∈ s.writeQueue ∨ p ∈ s.dramFillQueue ∨ p ∈ s.nvmWriteQueue)
    (hc1 : p.addr ≤ orig.addr)
    (hc2 : orig.addr + orig.size ≤ p.addr + p.size)
    (hc3 : p.is_waiting_for_nvm_read = false) :
    (recvTimingReq c s orig).1 = true ∧
    (∃ b, (recvTimingReq c s orig).2.responses = s.responses ++ [(orig.addr, b)]) ∧
    (recvTimingReq c s orig).2.readQueue = s.readQueue ∧
    (recvTimingReq c s orig).2.writeQueue = s.writeQueue ∧
    (recvTimingReq c s orig).2.nvmReadQueue = s.nvmReadQueue ∧
    (recvTimingReq c s orig).2.nvmWriteQueue = s.nvmWriteQueue ∧
    (recvTimingReq c s orig).2.dramFillQueue = s.dramFillQueue ∧
    (recvTimingReq c s orig).2.respQueue = s.respQueue := by
  have hc : divCeil (orig.addr % 2 ^ c.burstShift + orig.size) (2 ^ c.burstShift) = 1 :=
    divCeil_eq_one (by omega) hone
  have hbs : 0 < 2 ^ c.burstShift := pow_pos (by omega) _
  have hm := Nat.mod_le orig.addr (2 ^ c.burstShift)
  have hmin : min (orig.addr - orig.addr % 2 ^ c.burstShift + 2 ^ c.burstShift)
      (orig.addr + orig.size) = orig.addr + orig.size := min_eq_right (by omega)
  have hsize : min (orig.addr - orig.addr % 2 ^ c.burstShift + 2 ^ c.burstShift)
      (orig.addr + orig.size) - orig.addr = orig.size := by
    rw [hmin]
    omega
  have hcov : coveredBy p orig.addr orig.size = true := by
    simp [coveredBy, hc1, hc2, hc3]
  have hor : ((decide (burstAlign c true orig.addr ∈ s.isInWriteQueue) &&
      s.writeQueue.any (fun q => coveredBy q orig.addr
        (min (orig.addr - orig.addr % 2 ^ c.burstShift + 2 ^ c.burstShift)
          (orig.addr + orig.size) - orig.addr))) ||
    s.dramFillQueue.any (fun q => coveredBy q orig.addr
      (min (orig.addr - orig.addr % 2 ^ c.burstShift + 2 ^ c.burstShift)
        (orig.addr + orig.size) - orig.addr)) ||
    s.nvmWriteQueue.any (fun q => coveredBy q orig.addr
      (min (orig.addr - orig.addr % 2 ^ c.burstShift + 2 ^ c.burstShift)
        (orig.addr + orig.size) - orig.addr))) = true := by
    simp only [hsize]
    rcases hp with hp | hp | hp
    · have hmem : burstAlign c true orig.addr ∈ s.isInWriteQueue := by
        rw [burstAlign_eq_of_covered c p orig.addr (hwin p hp) hc1 (by omega)]
        exact hset p hp
      have hany : s.writeQueue.any (fun q => coveredBy q orig.addr orig.size) = true :=
        List.any_eq_true.mpr ⟨p, hp, hcov⟩
      rw [decide_eq_true hmem, hany]
      rfl
    · have hany : s.dramFillQueue.any (fun q => coveredBy q orig.addr orig.size) = true :=
        List.any_eq_true.mpr ⟨p, hp, hcov⟩
      rw [hany]
      simp
    · have hany : s.nvmWriteQueue.any (fun q => coveredBy q orig.addr orig.size) = true :=
        List.any_eq_true.mpr ⟨p, hp, hcov⟩
      rw [hany]
      simp
  obtain ⟨b, e1⟩ := addToReadQueue_one_found c s orig hor
  have e0 : recvTimingReq c s orig =
      (true, { addToReadQueue c s orig 1 with
                 totalReceivedPkts := s.totalReceivedPkts + 1 }) := by
    simp [recvTimingReq, hr, hc, hnotfull]
  rw [e0, e1]
  exact ⟨rfl, ⟨b, rfl⟩, rfl, rfl, rfl, rfl, rfl, rfl⟩

/-- Witness for C6: the concrete single-burst read of bytes [16, 48) covered
    by the queued NVM write packet is answered at admission and changes no
    queue. -/
theorem c6_forwarded_read_immediate_finalize_witness :
    (recvTimingReq demoCfg c6State c6Orig).1 = true ∧
    (∃ b, (recvTimingReq demoCfg c6State c6Orig).2.responses =
      c6State.responses ++ [(c6Orig.addr, b)]) ∧
    (recvTimingReq demoCfg c6State c6Orig).2.readQueue = c6State.readQueue ∧
    (recvTimingReq demoCfg c6State c6Orig).2.writeQueue = c6State.writeQueue ∧
    (recvTimingReq demoCfg c6State c6Orig).2.nvmReadQueue = c6State.nvmReadQueue ∧
    (recvTimingReq demoCfg c6State c6Orig).2.nvmWriteQueue = c6State.nvmWriteQueue ∧
    (recvTimingReq demoCfg c6State c6Orig).2.dramFillQueue = c6State.dramFillQueue ∧
    (recvTimingReq demoCfg c6State c6Orig).2.respQueue = c6State.respQueue :=
  c6_forwarded_read_immediate_finalize demoCfg c6State c6Orig c6Pkt
    (by decide) (by decide) (by decide) (by decide)
    (by intro q hq; simp [c6State, initState] at hq)
    (by intro q hq; simp [c6State, initState] at hq)
    (Or.inr (Or.inr (by simp [c6State]))) (by decide) (by decide) (by decide)

theorem c10_pure_read_hit_frame_witness :
    (processRespondEvent demoCfg c10State).tagStoreDC = c10State.tagStoreDC ∧
    (processRespondEvent demoCfg c10State).readQueue = c10State.readQueue ∧
    (processRespondEvent demoCfg c10State).writeQueue = c10State.writeQueue ∧
    (processRespondEvent demoCfg c10State).nvmReadQueue = c10State.nvmReadQueue ∧
    (processRespondEvent demoCfg c10State).nvmWriteQueue = c10State.nvmWriteQueue ∧
    (processRespondEvent demoCfg c10State).dramFillQueue = c10State.dramFillQueue ∧
    (processRespondEvent demoCfg c10State).respQueue = [] ∧
    ((processRespondEvent demoCfg c10State).responses = c10State.responses ∨
     (processRespondEvent demoCfg c10State).responses =
       c10State.responses ++ [(c2Pkt.origAddr, true)]) :=
  c10_pure_read_hit_frame demoCfg c10State 5 c2Pkt []
    rfl rfl rfl rfl (by decide) (by decide) rfl


/-- C8 counterexample: with commandWindow 10 and max_multi_cmd_split 3, an
    aligned request at tick 20 on an empty burstTicks set reserves the two
    command windows at ticks 20 and 10: the pair ends 10 apart, more than
    max_multi_cmd_split, because the initial placement rounds the required
    distance up to a whole window. -/
theorem c8_multi_cmd_gap_exceeds_split :
    verifyMultiCmd 10 1 3 [] 20 50 = some (20, 20, 10, [20, 10]) ∧
    ¬ (20 - 10 ≤ 3) := by
  decide

theorem singleGo_inserted (W : Nat) (maxCmds : Nat) (bt : List Nat) :
    ∀ (fuel cmd_at burst_tick cmd_at2 : Nat) (bt2 : List Nat),
      verifySingleCmdGo W maxCmds bt fuel cmd_at burst_tick = some (cmd_at2, bt2) →
      ∃ w, bt2 = w :: bt ∧ bt.count w < maxCmds := by
  intro fuel
  induction fuel with
  | zero =>
    intro _ _ _ _ h
    exact absurd h (by simp [verifySingleCmdGo])
  | succ n ih =>
    intro ca b ca2 bt2 h
    rw [verifySingleCmdGo] at h
    by_cases hcnt : maxCmds ≤ bt.count b
    · rw [if_pos hcnt] at h
      exact ih _ _ _ _ h
    · rw [if_neg hcnt] at h
      simp only [Option.some.injEq, Prod.mk.injEq] at h
      exact ⟨b, h.2.symm, Nat.lt_of_not_le hcnt⟩

theorem multiGo_exit (W : Nat) (maxCmds : Nat) (split : Nat) (bt : List Nat) :
    ∀ (fuel ca b f ca2 b2 f2 : Nat),
      verifyMultiCmdGo W maxCmds split bt fuel ca b f = some (ca2, b2, f2) →
      bt.count f2 < maxCmds ∧ (b2 = f2 → bt.count f2 + 1 < maxCmds) ∧
      (b2 ≠ f2 → bt.count b2 < maxCmds) := by
  intro fuel
  induction fuel with
  | zero =>
    intro _ _ _ _ _ _ h
    exact absurd h (by simp [verifyMultiCmdGo])
  | succ n ih =>
    intro ca b f ca2 b2 f2 h
    rw [verifyMultiCmdGo] at h
    by_cases hsb : b = f
    · subst hsb
      simp only [beq_self_eq_true, if_true, eq_self_iff_true, ite_true] at h
      by_cases h1 : bt.count b < maxCmds
      · by_cases h2 : bt.count b + 1 < maxCmds
        · rw [decide_eq_true h1, decide_eq_true h2] at h
          simp only [Bool.and_self, if_true, Option.some.injEq, Prod.mk.injEq] at h
          obtain ⟨-, hb2, hf2⟩ := h
          subst hb2; subst hf2
          exact ⟨h1, fun _ => h2, fun hne => absurd rfl hne⟩
        · rw [decide_eq_true h1, decide_eq_false h2] at h
          simp only [Bool.and_false, Bool.false_eq_true, if_false] at h
          exact ih _ _ _ _ _ _ h
      · rw [decide_eq_false h1] at h
        simp only [Bool.false_and, Bool.false_eq_true, if_false] at h
        exact ih _ _ _ _ _ _ h
    · have hsbb : (b == f) = false := by simpa using hsb
      rw [hsbb] at h
      simp only [Bool.false_eq_true, if_false] at h
      by_cases h1 : bt.count f < maxCmds
      · by_cases h2 : bt.count b < maxCmds
        · rw [decide_eq_true h1, decide_eq_true h2] at h
          simp only [Bool.and_self, if_true, Option.some.injEq, Prod.mk.injEq] at h
          obtain ⟨-, hb2, hf2⟩ := h
          subst hb2; subst hf2
          exact ⟨h1, fun he => absurd he hsb, fun _ => h2⟩
        · rw [decide_eq_true h1, decide_eq_false h2] at h
          simp only [Bool.and_false, Bool.false_eq_true, if_false] at h
          exact ih _ _ _ _ _ _ h
      · rw [decide_eq_false h1] at h
        simp only [Bool.false_and, Bool.false_eq_true, if_false] at h
        exact ih _ _ _ _ _ _ h

theorem multiGo_gap (W : Nat) (maxCmds : Nat) (split : Nat) (bt : List Nat)
    (hW : 0 < W) :
    ∀ (fuel ca b f m ca2 b2 f2 : Nat),
      b = f + W * m → W * m ≤ split + W →
      verifyMultiCmdGo W maxCmds split bt fuel ca b f = some (ca2, b2, f2) →
      ∃ m2, b2 = f2 + W * m2 ∧ W * m2 ≤ split + W := by
  intro fuel
  induction fuel with
  | zero =>
    intro _ _ _ _ _ _ _ _ _ h
    exact absurd h (by simp [verifyMultiCmdGo])
  | succ n ih =>
    intro ca b f m ca2 b2 f2 hb hle h
    rw [verifyMultiCmdGo] at h
    by_cases hsb : b = f
    · subst hsb
      have hm0 : W * m = 0 := by omega
      simp only [beq_self_eq_true, if_true, eq_self_iff_true, ite_true] at h
      by_cases h1 : bt.count b < maxCmds
      · by_cases h2 : bt.count b + 1 < maxCmds
        · rw [decide_eq_true h1, decide_eq_true h2] at h
          simp only [Bool.and_self, if_true, Option.some.injEq, Prod.mk.injEq] at h
          obtain ⟨-, hb2, hf2⟩ := h
          subst hb2; subst hf2
          exact ⟨0, by omega, by omega⟩
        · rw [decide_eq_true h1, decide_eq_false h2] at h
          simp only [Bool.and_false, Bool.false_eq_true, if_false, Bool.not_false,
            Bool.not_true, beq_self_eq_true, Bool.false_and, Bool.and_false,
            Bool.false_or, Bool.or_false, if_true, eq_self_iff_true, ite_true,
            ite_false] at h
          refine ih _ _ _ 1 _ _ _ (by omega) (by omega) h
      · rw [decide_eq_false h1] at h
        have h2 : ¬ (bt.count b + 1 < maxCmds) := by omega
        rw [decide_eq_false h2] at h
        simp only [Bool.false_and, Bool.false_eq_true, if_false, Bool.not_false,
          Bool.not_true, beq_self_eq_true, Bool.and_false, Bool.false_or,
          Bool.or_false, Bool.true_or, if_true, eq_self_iff_true, ite_true,
          ite_false] at h
        refine ih _ _ _ 0 _ _ _ (by omega) (by omega) h
    · have hsbb : (b == f) = false := by simpa using hsb
      have hm1 : 1 ≤ m := by
        rcases Nat.eq_zero_or_pos m with hm | hm
        · subst hm; simp at hb; omega
        · omega
      obtain ⟨k, rfl⟩ : ∃ k, m = k + 1 := ⟨m - 1, by omega⟩
      have hmul : W * (k + 1) = W * k + W := Nat.mul_succ W k
      rw [hsbb] at h
      simp only [Bool.false_eq_true, if_false] at h
      by_cases h1 : bt.count f < maxCmds
      · by_cases h2 : bt.count b < maxCmds
        · rw [decide_eq_true h1, decide_eq_true h2] at h
          simp only [Bool.and_self, if_true, Option.some.injEq, Prod.mk.injEq] at h
          obtain ⟨-, hb2, hf2⟩ := h
          subst hb2; subst hf2
          exact ⟨k + 1, hb, hle⟩
        · rw [decide_eq_true h1, decide_eq_false h2] at h
          simp only [Bool.and_false, Bool.false_eq_true, if_false, Bool.not_false,
            Bool.not_true, hsbb, Bool.true_and, Bool.false_or, if_true,
            eq_self_iff_true, ite_true, ite_false] at h
          by_cases hgv : split < b + W - f
          · rw [decide_eq_true hgv] at h
            simp only [if_true, eq_self_iff_true, ite_true] at h
            refine ih _ _ _ (k + 1) _ _ _ (by omega) (by omega) h
          · rw [decide_eq_false hgv] at h
            simp only [Bool.false_eq_true, if_false, ite_false] at h
            have hle2 : W * (k + 1 + 1) ≤ split + W := by
              have : W * (k + 1 + 1) = W * (k + 1) + W := Nat.mul_succ W (k + 1)
              omega
            refine ih _ _ _ (k + 1 + 1) _ _ _ ?_ hle2 h
            have : W * (k + 1 + 1) = W * (k + 1) + W := Nat.mul_succ W (k + 1)
            omega
      · rw [decide_eq_false h1] at h
        by_cases h2 : bt.count b < maxCmds
        · rw [decide_eq_true h2] at h
          simp only [Bool.false_and, Bool.false_eq_true, if_false, Bool.not_false,
            Bool.not_true, hsbb, Bool.true_and, Bool.and_true, Bool.true_or,
            Bool.or_true, if_true, eq_self_iff_true, ite_true, ite_false] at h
          refine ih _ _ _ k _ _ _ (by omega) (by omega) h
        · rw [decide_eq_false h2] at h
          simp only [Bool.false_and, Bool.false_eq_true, if_false, Bool.not_false,
            Bool.not_true, Bool.true_and, Bool.and_true, Bool.true_or,
            Bool.or_true, if_true, eq_self_iff_true, ite_true, ite_false] at h
          refine ih _ _ _ (k + 1) _ _ _ (by omega) (by omega) h

theorem burstOffsetLoop_bound (W split f_off : Nat) :
    ∀ (fuel off0 off : Nat), W ∣ off0 → off0 ≤ split + W →
      burstOffsetLoop W split f_off fuel off0 = some off →
      W ∣ off ∧ off ≤ split + W := by
  intro fuel
  induction fuel with
  | zero =>
    intro _ _ _ _ h
    exact absurd h (by simp [burstOffsetLoop])
  | succ n ih =>
    intro off0 off hdvd hle h
    rw [burstOffsetLoop] at h
    by_cases hlt : f_off + off0 < split
    · rw [if_pos hlt] at h
      exact ih _ _ (Dvd.dvd.add hdvd (dvd_refl W)) (by omega) h
    · rw [if_neg hlt] at h
      simp only [Option.some.injEq] at h
      exact ⟨h ▸ hdvd, h ▸ hle⟩

theorem getBurstWindow_eq (W cmd_tick : Nat) :
    getBurstWindow W cmd_tick = W * (cmd_tick / W) := by
  have := Nat.mod_add_div cmd_tick W
  unfold getBurstWindow
  omega

/-- C8: amended property of command-window reservation. Starting from a
    burstTicks multiset in which no window holds more than
    max_cmds_per_burst reservations, verifySingleCmd keeps every window
    within budget (deferring to a later window when the requested one is
    full), and verifyMultiCmd keeps every window within budget and places
    its two reserved windows at most max_multi_cmd_split plus one
    commandWindow apart (not max_multi_cmd_split, as the spec states: the
    initial placement rounds the split up to whole windows). -/
theorem c8_window_budget_and_gap (W maxCmds split : Nat) (bt : List Nat)
    (cmd_tick fuel : Nat) (hW : 0 < W)
    (hinv : ∀ w, bt.count w ≤ maxCmds) :
    (∀ cmd_at2 bt2,
       verifySingleCmd W maxCmds bt cmd_tick fuel = some (cmd_at2, bt2) →
       ∀ w, bt2.count w ≤ maxCmds) ∧
    (∀ cmd_at b f bt2,
       verifyMultiCmd W maxCmds split bt cmd_tick fuel = some (cmd_at, b, f, bt2) →
       (∀ w, bt2.count w ≤ maxCmds) ∧ b - f ≤ split + W) := by
  constructor
  · intro cmd_at2 bt2 h
    obtain ⟨w0, hbt2, hcnt⟩ := singleGo_inserted W maxCmds bt fuel cmd_tick
      (getBurstWindow W cmd_tick) cmd_at2 bt2 h
    subst hbt2
    intro w
    by_cases hw : w = w0
    · subst hw
      simp only [List.count_cons, beq_self_eq_true, if_true]
      omega
    · have hww : (w0 == w) = false := by simpa using (Ne.symm hw)
      simp only [List.count_cons, hww, Bool.false_eq_true, if_false]
      have := hinv w
      omega
  · intro cmd_at b f bt2 h
    simp only [verifyMultiCmd] at h
    split at h
    · exact absurd h (by simp)
    · rename_i off hbo
      split at h
      · exact absurd h (by simp)
      · rename_i ca1 b1 f1 hgo
        simp only [Option.some.injEq, Prod.mk.injEq] at h
        obtain ⟨-, hb, hf, hbt2⟩ := h
        subst hb
        subst hf
        subst hbt2
        obtain ⟨⟨mo, hoff⟩, hole⟩ :=
          burstOffsetLoop_bound W split (cmd_tick % W) fuel 0 off
            (dvd_zero W) (by omega) hbo
        have hB := getBurstWindow_eq W cmd_tick
        have hinit : ∃ m, getBurstWindow W cmd_tick =
            (getBurstWindow W cmd_tick - min off (getBurstWindow W cmd_tick)) + W * m ∧
            W * m ≤ split + W := by
          by_cases hc : off ≤ getBurstWindow W cmd_tick
          · refine ⟨mo, ?_, ?_⟩ <;> omega
          · refine ⟨cmd_tick / W, ?_, ?_⟩ <;> omega
        obtain ⟨m, hm1, hm2⟩ := hinit
        obtain ⟨m2, hg1, hg2⟩ := multiGo_gap W maxCmds split bt hW fuel cmd_tick
          (getBurstWindow W cmd_tick)
          (getBurstWindow W cmd_tick - min off (getBurstWindow W cmd_tick))
          m ca1 b1 f1 hm1 hm2 hgo
        obtain ⟨he1, he2, he3⟩ := multiGo_exit W maxCmds split bt fuel cmd_tick
          (getBurstWindow W cmd_tick)
          (getBurstWindow W cmd_tick - min off (getBurstWindow W cmd_tick))
          ca1 b1 f1 hgo
        refine ⟨?_, by omega⟩
        intro w
        by_cases hbf : b1 = f1
        · rw [hbf]
          have h2 := he2 hbf
          by_cases hw : w = f1
          · subst hw
            simp only [List.count_cons, beq_self_eq_true, if_true]
            omega
          · have hwf : (f1 == w) = false := by simpa using (Ne.symm hw)
            simp only [List.count_cons, hwf, Bool.false_eq_true, if_false]
            have := hinv w
            omega
        · have h3 := he3 hbf
          by_cases hw1 : w = b1
          · subst hw1
            have hwf : (f1 == w) = false := by simpa using (Ne.symm hbf)
            simp only [List.count_cons, beq_self_eq_true, if_true, hwf, Bool.false_eq_true, if_false]
            omega
          · have hwb : (b1 == w) = false := by simpa using (Ne.symm hw1)
            by_cases hw2 : w = f1
            · subst hw2
              simp only [List.count_cons, hwb, Bool.false_eq_true, if_false, beq_self_eq_true, if_true]
              omega
            · have hwf : (f1 == w) = false := by simpa using (Ne.symm hw2)
              simp only [List.count_cons, hwb, hwf, Bool.false_eq_true, if_false]
              exact hinv w

theorem c8_window_budget_and_gap_witness :
    ([20, 10] : List Nat).count 20 ≤ 1 ∧ (20 : Nat) - 10 ≤ 3 + 10 := by
  have h := (c8_window_budget_and_gap 10 1 3 [] 20 50 (by decide)
    (by simp)).2 20 20 10 [20, 10] (by decide)
  exact ⟨h.1 20, h.2⟩

theorem TagInv_addToDRAMFillQueue (c : Config) (s : CtrlState) (pkt : MemPkt)
    (w : Bool) (h : TagInv s.tagStoreDC) :
    TagInv (addToDRAMFillQueue c s pkt w).tagStoreDC := by
  intro i
  simp only [addToDRAMFillQueue, Function.update_apply]
  split
  · intro _; rfl
  · exact h i

theorem TagInv_handleHit (c : Config) (s0 : CtrlState) (pkt : MemPkt)
    (h : TagInv s0.tagStoreDC) : TagInv (handleHit c s0 pkt).tagStoreDC := by
  simp only [handleHit]
  split
  · exact h
  · split
    · split
      · exact TagInv_addToDRAMFillQueue c s0 pkt false h
      · exact h
    · exact h

theorem TagInv_handleCleanMiss (c : Config) (s0 : CtrlState) (pkt : MemPkt)
    (h : TagInv s0.tagStoreDC) : TagInv (handleCleanMiss c s0 pkt).tagStoreDC := by
  simp only [handleCleanMiss]
  split
  · split
    · exact TagInv_addToDRAMFillQueue c _ pkt true h
    · split <;> split <;> exact h
  · split
    · split
      · exact h
      · exact h
    · split
      · exact TagInv_addToDRAMFillQueue c _ pkt true h
      · split <;> split <;> exact h

theorem TagInv_handleDirtyMiss (c : Config) (s0 : CtrlState) (pkt : MemPkt)
    (h : TagInv s0.tagStoreDC) : TagInv (handleDirtyMiss c s0 pkt).tagStoreDC := by
  simp only [handleDirtyMiss]
  split
  · split
    · exact TagInv_addToDRAMFillQueue c _ pkt true h
    · split <;> split <;> split <;> exact h
  · split
    · split
      · exact h
      · exact h
    · split
      · exact TagInv_addToDRAMFillQueue c _ pkt true h
      · split <;> split <;> split <;> exact h

theorem TagInv_respondPhase (s : CtrlState) (pkt : MemPkt)
    (h : TagInv s.tagStoreDC) : TagInv (respondPhase s pkt).tagStoreDC := by
  rw [(respondPhase_frame s pkt).2.2.2.2.2.2.1]
  exact h

theorem TagInv_processRespondEvent (c : Config) (s0 : CtrlState)
    (h : TagInv s0.tagStoreDC) : TagInv (processRespondEvent c s0).tagStoreDC := by
  simp only [processRespondEvent]
  split
  · exact h
  · repeat' split
    all_goals
      first
        | exact TagInv_handleCleanMiss _ _ _ h
        | exact TagInv_handleHit _ _ _ h
        | exact TagInv_handleDirtyMiss _ _ _ h
        | exact h
        | (apply TagInv_respondPhase
           first
             | exact TagInv_handleCleanMiss _ _ _ h
             | exact TagInv_handleHit _ _ _ h
             | exact TagInv_handleDirtyMiss _ _ _ h
             | exact h)

theorem tagStoreDC_readLoopStep (c : Config) (orig : OrigPkt) (pc : Nat)
    (acc : ReadLoopAcc) :
    (readLoopStep c orig pc acc).s.tagStoreDC = acc.s.tagStoreDC := by
  simp only [readLoopStep]
  split
  · rfl
  · split
    · rfl
    · split <;> rfl

theorem tagStoreDC_addToReadQueue (c : Config) (s : CtrlState) (orig : OrigPkt)
    (pc : Nat) : (addToReadQueue c s orig pc).tagStoreDC = s.tagStoreDC := by
  have key := iterateStep_inv (readLoopStep c orig pc)
    (fun acc => acc.s.tagStoreDC) (fun a => tagStoreDC_readLoopStep c orig pc a)
    pc ⟨s, orig.addr, 0, 0, 0, false, none⟩
  simp only [addToReadQueue]
  split
  · exact key
  · split
    · exact key
    · exact key

theorem tagStoreDC_writeLoopStep (c : Config) (orig : OrigPkt)
    (acc : CtrlState × Nat) :
    (writeLoopStep c orig acc).1.tagStoreDC = acc.1.tagStoreDC := by
  simp only [writeLoopStep]
  split <;> rfl

theorem tagStoreDC_addToWriteQueue (c : Config) (s : CtrlState) (orig : OrigPkt)
    (pc : Nat) : (addToWriteQueue c s orig pc).tagStoreDC = s.tagStoreDC := by
  exact iterateStep_inv (writeLoopStep c orig)
    (fun acc => acc.1.tagStoreDC) (fun a => tagStoreDC_writeLoopStep c orig a)
    pc (s, orig.addr)

theorem tagStoreDC_recvTimingReq (c : Config) (s : CtrlState) (orig : OrigPkt) :
    (recvTimingReq c s orig).2.tagStoreDC = s.tagStoreDC := by
  simp only [recvTimingReq]
  split
  · split
    · rfl
    · exact tagStoreDC_addToWriteQueue c s orig _
  · split
    · rfl
    · exact tagStoreDC_addToReadQueue c s orig _

theorem tagStoreDC_postWriteSwitch (c : Config)
    (draining nvmWriteRespFull all_writes_nvm : Bool) (s : CtrlState) :
    (postWriteSwitch c draining nvmWriteRespFull all_writes_nvm s).tagStoreDC =
      s.tagStoreDC := by
  simp only [postWriteSwitch]
  split <;> rfl

theorem tagStoreDC_writeBranch (cf cnv : List MemPkt → Option Nat) (c : Config)
    (draining nvmWriteRespFull all_writes_nvm : Bool) (s : CtrlState) :
    (writeBranch cf cnv c draining nvmWriteRespFull all_writes_nvm s).2.tagStoreDC =
      s.tagStoreDC := by
  simp only [writeBranch]
  split
  · split
    · split
      · rfl
      · rw [tagStoreDC_postWriteSwitch]
    · rfl
  · split
    · split
      · rw [tagStoreDC_postWriteSwitch]
      · rfl
    · rfl

theorem tagStoreDC_issueReadStep (fromNvm : Bool) (i rt : Nat) (s : CtrlState) :
    (issueReadStep fromNvm i rt s).tagStoreDC = s.tagStoreDC := by
  simp only [issueReadStep]
  split
  · split <;> rfl
  · split <;> rfl

theorem tagStoreDC_issueWriteProbeStep (c : Config) (i rt : Nat)
    (s : CtrlState) :
    (issueWriteProbeStep c i rt s).tagStoreDC = s.tagStoreDC := by
  simp only [issueWriteProbeStep]
  split <;> rfl

/-- C4: at every state reachable from the freshly constructed controller, a
    tag-store line whose dirty bit is set also has its valid bit set: the
    only operation that mutates a tag entry, the fill enqueue, sets both
    bits, and every other controller operation leaves the tag store
    untouched, starting from the all-invalid initial store. -/
theorem c4_dirty_implies_valid (c : Config) (s : CtrlState)
    (h : Reachable c s) : TagInv s.tagStoreDC := by
  induction h with
  | init =>
    intro i hd
    exact absurd hd (by simp [initState, initTagEntry])
  | step hr hstep ih =>
    cases hstep with
    | accept orig s1 =>
      rw [tagStoreDC_recvTimingReq]
      exact ih
    | respond s1 =>
      exact TagInv_processRespondEvent _ _ ih
    | issueRead fromNvm i rt s1 =>
      rw [tagStoreDC_issueReadStep]
      exact ih
    | issueWriteProbe i rt s1 =>
      rw [tagStoreDC_issueWriteProbeStep]
      exact ih
    | issueW cf cnv draining nvmWriteRespFull all_writes_nvm s1 =>
      rw [tagStoreDC_writeBranch]
      exact ih

theorem c4_dirty_implies_valid_witness :
    TagInv (recvTimingReq demoCfg initState c1Orig).2.tagStoreDC :=
  c4_dirty_implies_valid demoCfg _
    (Reachable.step Reachable.init (Step.accept c1Orig initState))

end MemCtrl
